import Mathlib

/- Shallow embedding of the game server of the io-type-game repository
   (file server.js, staged as src/unnamed/part_000). Numbers are modelled
   as rationals; calls to Math.sqrt, Math.pow, Math.cos, Math.sin,
   Math.atan2, Math.PI and Math.random are threaded through an explicit
   environment JsEnv so that every definition stays computable. Maps keyed
   by id are modelled as insertion-ordered association lists, matching the
   iteration order of a JavaScript Map. -/

namespace IoGame

/- Game configuration, lines 5 to 20 of the source. -/

namespace CONFIG

def foodCount : Nat := 100

def playerStartSize : ℚ := 1

def foodSize : ℚ := 3/10

def growthRate : ℚ := 1/20

def absorptionThreshold : ℚ := 6/5

def forceMagnitude : ℚ := 10

def respawnThreshold : ℚ := 3/10

def respawnAmount : Nat := 10

def mapWidth : ℚ := 20

def mapHeight : ℚ := 15

def maxPlayers : Nat := 5

def minPlayersToStart : Nat := 2

def countdownTime : ℤ := 3

def tickRate : ℚ := 60

end CONFIG

/- The palette of line 39: [0x44aa88, 0xaa4444, 0x4444aa, 0xaaaa44, 0xaa44aa]. -/
def playerColors : List Nat := [0x44aa88, 0xaa4444, 0x4444aa, 0xaaaa44, 0xaa44aa]

/- A plain {x, y} record of the source. -/
structure Vec2 where
  x : ℚ
  y : ℚ
deriving DecidableEq, Repr

/- States of a lobby: the string field gameState takes the values
   "lobby", "countdown" and "playing" in the per-lobby code. -/
inductive GameState where
  | lobby
  | countdown
  | playing
deriving DecidableEq, Repr

/- A player record, as created by handleJoinLobby (lines 241 to 251).
   lastUpdate is absent until the first simulation tick writes it, hence
   the Option. -/
structure Player where
  id : Nat
  clientId : Nat
  name : String
  color : Nat
  ready : Bool
  x : ℚ
  y : ℚ
  size : ℚ
  input : Vec2
  lastUpdate : Option ℚ
deriving DecidableEq, Repr

/- One lobby record (DEFAULT_LOBBY shape, lines 22 to 29). The two interval
   handles are modelled as booleans: true when the timer is active. -/
structure Lobby where
  players : List Player
  gameState : GameState
  foodItems : List Vec2
  countdown : ℤ
  countdownInterval : Bool
  gameTickInterval : Bool
deriving DecidableEq, Repr

/- A client record (lines 52 to 56). wsOpen models
   ws.readyState === WebSocket.OPEN. -/
structure Client where
  id : Nat
  playerId : Option Nat
  lobbyId : Option Nat
  wsOpen : Bool
deriving DecidableEq, Repr

/- The whole server state: the clients map, the lobbies map, a counter
   producing fresh uuids, and the cursor into the random stream. -/
structure World where
  clients : List Client
  lobbies : List (Nat × Lobby)
  nextId : Nat
  rngK : Nat
deriving DecidableEq, Repr

/- Outgoing message payloads (section 6 of the protocol). The field that
   the wire calls by is rendered eater here because by is a keyword. -/
inductive Msg where
  | errorMsg (message : String)
  | lobbyCreated (lobbyId : Nat)
  | welcome (clientId playerId lobbyId : Nat)
  | lobbyUpdate (players : List (Nat × String × Bool × Nat))
  | countdownMsg (count : ℤ)
  | gameStart (players : List (Nat × ℚ × ℚ × ℚ)) (food : List Vec2)
  | gameUpdate (players : List (Nat × ℚ × ℚ × ℚ))
  | foodEaten (x y : ℚ) (eater : Nat) (newFood : Option Vec2)
  | playerEaten (eaten : Nat) (eater : Option Nat)
  | youWereEliminated
  | playerDisconnected (playerId : Nat)
  | gameOver (winner : Option Nat) (size : ℚ)
  | forceLobby
  | prepareReconnect
deriving DecidableEq, Repr

/- One delivery: the payload and the client ids it is sent to. A lobby
   broadcast serializes once and fans out, so it is one Event whose
   recipients are computed from the roster at emission time. -/
structure Event where
  recipients : List Nat
  payload : Msg
deriving DecidableEq, Repr

/- A deferred one-shot action: endGame schedules the teardown of a lobby
   after a delay in milliseconds (setTimeout of line 873). -/
structure PendingTimeout where
  delayMs : ℚ
  lobbyId : Nat
deriving DecidableEq, Repr

/- The oracle for the float library functions the source calls. rng is the
   stream of Math.random() results, indexed by call count. -/
structure JsEnv where
  sqrt : ℚ → ℚ
  pow : ℚ → ℚ → ℚ
  cos : ℚ → ℚ
  sin : ℚ → ℚ
  atan2 : ℚ → ℚ → ℚ
  pi : ℚ
  rng : Nat → ℚ

/- Registry helpers: clients.get, lobbies.get, Map.set style updates. -/

def findClient (w : World) (cid : Nat) : Option Client :=
  w.clients.find? (fun c => c.id == cid)

def findLobby (w : World) (lid : Nat) : Option Lobby :=
  (w.lobbies.find? (fun e => e.1 == lid)).map Prod.snd

def setLobby (w : World) (lid : Nat) (L : Lobby) : World :=
  { w with lobbies := w.lobbies.map (fun e => if e.1 == lid then (e.1, L) else e) }

def updateClient (w : World) (cid : Nat) (f : Client → Client) : World :=
  { w with clients := w.clients.map (fun c => if c.id == cid then f c else c) }

/- Mutation of the lobby object in place, as JavaScript does through the
   reference returned by lobbies.get. -/
def modifyLobbyIf (w : World) (lid : Nat) (f : Lobby → Lobby) : World :=
  match findLobby w lid with
  | some L => setLobby w lid (f L)
  | none => w

def modifyRoster (w : World) (lid : Nat) (f : List Player → List Player) : World :=
  modifyLobbyIf w lid (fun L => { L with players := f L.players })

def rosterOf (w : World) (lid : Nat) : List Player :=
  match findLobby w lid with
  | some L => L.players
  | none => []

def rosterGet (ps : List Player) (pid : Nat) : Option Player :=
  ps.find? (fun p => p.id == pid)

/- Map.set: replace in place when the key exists, append otherwise. -/
def rosterSet (ps : List Player) (player : Player) : List Player :=
  if ps.any (fun q => q.id == player.id) then
    ps.map (fun q => if q.id == player.id then player else q)
  else ps ++ [player]

/- sendToClient, lines 891 to 896: delivery only to an open connection. -/
def sendToClient (w : World) (cid : Nat) (m : Msg) : List Event :=
  match findClient w cid with
  | some c => if c.wsOpen then [⟨[cid], m⟩] else []
  | none => []

/- The open connections owning a player of the lobby, in roster order
   (body of broadcastToLobby, lines 915 to 920). -/
def lobbyRecipients (w : World) (L : Lobby) : List Nat :=
  L.players.filterMap (fun p =>
    match findClient w p.clientId with
    | some c => if c.wsOpen then some c.id else none
    | none => none)

/- broadcastToLobby, lines 910 to 921. -/
def broadcastToLobby (w : World) (lid : Nat) (m : Msg) : List Event :=
  match findLobby w lid with
  | some L => [⟨lobbyRecipients w L, m⟩]
  | none => []

/- broadcastLobbyUpdate, lines 388 to 405. -/
def broadcastLobbyUpdate (w : World) (lid : Nat) : List Event :=
  match findLobby w lid with
  | some L =>
      broadcastToLobby w lid
        (Msg.lobbyUpdate (L.players.map (fun p => (p.id, p.name, p.ready, p.color))))
  | none => []

/- DEFAULT_LOBBY of lines 22 to 29 with a fresh empty roster. -/
def defaultLobby : Lobby :=
  { players := [], gameState := GameState.lobby, foodItems := [],
    countdown := CONFIG.countdownTime, countdownInterval := false,
    gameTickInterval := false }

/- createLobby, lines 80 to 88; the generated code is passed in. Map.set
   replaces the value in place when the key is already present. -/
def createLobby (w : World) (code : Nat) : World :=
  { w with lobbies :=
      if w.lobbies.any (fun e => e.1 == code) then
        w.lobbies.map (fun e => if e.1 == code then (e.1, defaultLobby) else e)
      else w.lobbies ++ [(code, defaultLobby)] }

/- endGame, lines 853 to 888. Note that it does not change gameState, and
   it only clears the tick interval; the 3 second teardown is returned as
   a PendingTimeout, executed by runGameOverTimeout below. -/
def endGame (w : World) (lid : Nat) (winnerId : Option Nat) :
    World × List Event × List PendingTimeout :=
  match findLobby w lid with
  | none => (w, [], [])
  | some L =>
      if L.gameState ≠ GameState.playing then (w, [], [])
      else
        let w1 := setLobby w lid { L with gameTickInterval := false }
        let winner :=
          match winnerId with
          | some wid => rosterGet L.players wid
          | none => none
        let sz := match winner with
          | some p => p.size
          | none => 0
        (w1, broadcastToLobby w1 lid (Msg.gameOver winnerId sz), [⟨3000, lid⟩])

/- The body of the setTimeout of lines 873 to 887: tell each remaining
   connection to prepare for reconnect, close it, delete the lobby. -/
def disconnectAllLoop : List Player → World → World × List Event
  | [], w => (w, [])
  | p :: rest, w =>
      match findClient w p.clientId with
      | some c =>
          let evs := sendToClient w c.id Msg.prepareReconnect
          let w1 := updateClient w c.id (fun cl => { cl with wsOpen := false })
          let r := disconnectAllLoop rest w1
          (r.1, evs ++ r.2)
      | none => disconnectAllLoop rest w

def runGameOverTimeout (w : World) (lid : Nat) : World × List Event :=
  match findLobby w lid with
  | some L =>
      let r := disconnectAllLoop L.players w
      ({ r.1 with lobbies := r.1.lobbies.filter (fun e => e.1 != lid) }, r.2)
  | none => ({ w with lobbies := w.lobbies.filter (fun e => e.1 != lid) }, [])

/- The guarded body of absorbPlayer, lines 801 to 825: the first client
   owning the absorbed player is searched; only when it exists is the
   player removed from the roster, the connection detached, and are the
   two notifications emitted. -/
def absorbStep1 (w : World) (lid absorberId absorbeId : Nat) : World × List Event :=
  match w.clients.find? (fun c => c.playerId == some absorbeId) with
  | some c =>
      let w1 := modifyRoster w lid (fun ps => ps.filter (fun q => q.id != absorbeId))
      let w2 := updateClient w1 c.id (fun cl => { cl with playerId := none })
      let e1 := broadcastToLobby w2 lid (Msg.playerEaten absorbeId (some absorberId))
      let e2 := sendToClient w2 c.id Msg.youWereEliminated
      (w2, e1 ++ e2)
  | none => (w, [])

/- absorbPlayer, lines 796 to 832: the elimination step above, then the
   end of game check of lines 827 to 831. -/
def absorbPlayer (w : World) (lid absorberId absorbeId : Nat) :
    World × List Event × List PendingTimeout :=
  match findLobby w lid with
  | none => (w, [], [])
  | some _ =>
      let step1 := absorbStep1 w lid absorberId absorbeId
      match findLobby step1.1 lid with
      | none => (step1.1, step1.2, [])
      | some L2 =>
          if L2.players.length ≤ 1 ∧ L2.gameState = GameState.playing then
            let r := endGame step1.1 lid ((L2.players[0]?).map Player.id)
            (r.1, step1.2 ++ r.2.1, r.2.2)
          else (step1.1, step1.2, [])

/- Local constants of the boundary handling, lines 596 to 597. -/
def boundaryForce : ℚ := 4/5

def boundaryDistance : ℚ := 2

/- The per-player body of the movement loop of updateGameState, lines 572
   to 622. The unconditional lastUpdate write of line 617 is the final
   step; every guard and clamp is inside the nonzero-input branch as in
   the source. now1 stands for the Date.now() of line 617. -/
def movePlayer (env : JsEnv) (deltaTime now1 : ℚ) (p : Player) : Player :=
  let p1 :=
    if p.input.x ≠ 0 ∨ p.input.y ≠ 0 then
      let moveSpeed := CONFIG.forceMagnitude * env.pow (1 / p.size) (1/2) * deltaTime
      let inputMagnitude := env.sqrt (p.input.x * p.input.x + p.input.y * p.input.y)
      let pMoved :=
        if inputMagnitude > 0 then
          { p with x := p.x + p.input.x / inputMagnitude * moveSpeed,
                   y := p.y + p.input.y / inputMagnitude * moveSpeed }
        else p
      let pX :=
        if pMoved.x < -CONFIG.mapWidth + boundaryDistance then
          { pMoved with x := max (-CONFIG.mapWidth) pMoved.x,
                        input := ⟨pMoved.input.x * -boundaryForce, pMoved.input.y⟩ }
        else if pMoved.x > CONFIG.mapWidth - boundaryDistance then
          { pMoved with x := min CONFIG.mapWidth pMoved.x,
                        input := ⟨pMoved.input.x * -boundaryForce, pMoved.input.y⟩ }
        else pMoved
      let pY :=
        if pX.y < -CONFIG.mapHeight + boundaryDistance then
          { pX with y := max (-CONFIG.mapHeight) pX.y,
                    input := ⟨pX.input.x, pX.input.y * -boundaryForce⟩ }
        else if pX.y > CONFIG.mapHeight - boundaryDistance then
          { pX with y := min CONFIG.mapHeight pX.y,
                    input := ⟨pX.input.x, pX.input.y * -boundaryForce⟩ }
        else pX
      pY
    else p
  { p1 with lastUpdate := some now1 }

/- State carried through the food scan of one lobby: the food array, the
   random cursor and the accumulated broadcasts. Membership of the roster
   does not change during it, so the recipient list is fixed. -/
structure FoodSt where
  foods : List Vec2
  rngK : Nat
  events : List Event
deriving Repr

/- The respawn batch of lines 682 to 698: each item consumes two random
   draws, x first. -/
def respawnFoods (env : JsEnv) : Nat → Nat → List Vec2
  | _, 0 => []
  | k, n + 1 =>
      ⟨(env.rng k * 2 - 1) * CONFIG.mapWidth,
       (env.rng (k + 1) * 2 - 1) * CONFIG.mapHeight⟩ :: respawnFoods env (k + 2) n

/- The body of the inner food loop at index i, lines 659 to 700: grow,
   broadcast, splice, then batch respawn with one broadcast per new item
   when the remaining count is below the threshold. -/
def foodStep (env : JsEnv) (recips : List Nat) (p : Player) (st : FoodSt) (i : Nat) :
    Player × FoodSt :=
  match st.foods[i]? with
  | none => (p, st)
  | some f =>
      let dx := p.x - f.x
      let dy := p.y - f.y
      let distance := env.sqrt (dx * dx + dy * dy)
      if distance < p.size + CONFIG.foodSize then
        let p1 := { p with size := p.size + CONFIG.growthRate }
        let ev0 : Event := ⟨recips, Msg.foodEaten f.x f.y p.id none⟩
        let foods1 := st.foods.eraseIdx i
        if (foods1.length : ℚ) < (CONFIG.foodCount : ℚ) * CONFIG.respawnThreshold then
          let batch := respawnFoods env st.rngK CONFIG.respawnAmount
          let evs := batch.map (fun nf => (⟨recips, Msg.foodEaten f.x f.y p.id (some nf)⟩ : Event))
          (p1, ⟨foods1 ++ batch, st.rngK + 2 * CONFIG.respawnAmount, st.events ++ ev0 :: evs⟩)
        else (p1, ⟨foods1, st.rngK, st.events ++ [ev0]⟩)
      else (p, st)

/- The descending index loop of line 658, processing indices i, i-1, .., 0.
   The array can shrink by one at the processed index and grow at the end,
   so every index below the cursor stays valid, as in the source. -/
def foodScanFrom (env : JsEnv) (recips : List Nat) :
    Player → FoodSt → Nat → Player × FoodSt
  | p, st, 0 => foodStep env recips p st 0
  | p, st, i + 1 =>
      let r := foodStep env recips p st (i + 1)
      foodScanFrom env recips r.1 r.2 i

def foodScanPlayer (env : JsEnv) (recips : List Nat) (p : Player) (st : FoodSt) :
    Player × FoodSt :=
  if st.foods.length = 0 then (p, st)
  else foodScanFrom env recips p st (st.foods.length - 1)

/- lobby.players.forEach of line 657: players are visited in roster order;
   each one only mutates its own size and the shared food array. -/
def foodPlayersLoop (env : JsEnv) (recips : List Nat) :
    List Player → FoodSt → List Player × FoodSt
  | [], st => ([], st)
  | p :: rest, st =>
      let r1 := foodScanPlayer env recips p st
      let r2 := foodPlayersLoop env recips rest r1.2
      (r1.1 :: r2.1, r2.2)

/- checkFoodCollisions, lines 653 to 703. -/
def checkFoodCollisions (env : JsEnv) (w : World) (lid : Nat) : World × List Event :=
  match findLobby w lid with
  | none => (w, [])
  | some L =>
      let recips := lobbyRecipients w L
      let r := foodPlayersLoop env recips L.players ⟨L.foodItems, w.rngK, []⟩
      ({ setLobby w lid { L with players := r.1, foodItems := r.2.foods }
          with rngK := r.2.rngK }, r.2.events)

/- State of the pair loop of checkPlayerCollisions: snap is the snapshot
   array of line 710. A player object deleted from the roster map stays in
   the snapshot and keeps being visited, exactly as in the source; object
   mutation is mirrored into the roster entry of the same id. -/
structure CollSt where
  world : World
  snap : List Player
  events : List Event
  touts : List PendingTimeout

/- Writing through the alias: the snapshot cell and, when the player is
   still in the roster map, the map entry are one object. -/
def writeSnapPlayer (lid : Nat) (st : CollSt) (i : Nat) (p : Player) : CollSt :=
  { st with snap := st.snap.set i p,
            world := modifyRoster st.world lid
              (fun ps => ps.map (fun q => if q.id == p.id then p else q)) }

/- The body of the double loop for the pair (i, j), lines 713 to 790. The
   null and id guards of lines 714 and 718 can never fire for array
   elements and are represented by the none cases of the lookups. -/
def stepPair (env : JsEnv) (lid : Nat) (st : CollSt) (i j : Nat) : CollSt :=
  match st.snap[i]?, st.snap[j]? with
  | some pA, some pB =>
      let dx := pA.x - pB.x
      let dy := pA.y - pB.y
      let distanceSquared := dx * dx + dy * dy
      let distance := env.sqrt distanceSquared
      let touchDistance := pA.size + pB.size
      if distance < touchDistance then
        if pA.size > pB.size * CONFIG.absorptionThreshold then
          let massRatio := pB.size / pA.size
          let pA1 := { pA with
            size := pA.size + pB.size * (1/2),
            input := ⟨pA.input.x + pB.input.x * massRatio * (1/2),
                      pA.input.y + pB.input.y * massRatio * (1/2)⟩ }
          let st1 := writeSnapPlayer lid st i pA1
          let r := absorbPlayer st1.world lid pA.id pB.id
          { st1 with world := r.1, events := st1.events ++ r.2.1,
                     touts := st1.touts ++ r.2.2 }
        else if pB.size > pA.size * CONFIG.absorptionThreshold then
          let massRatio := pA.size / pB.size
          let pB1 := { pB with
            size := pB.size + pA.size * (1/2),
            input := ⟨pB.input.x + pA.input.x * massRatio * (1/2),
                      pB.input.y + pA.input.y * massRatio * (1/2)⟩ }
          let st1 := writeSnapPlayer lid st j pB1
          let r := absorbPlayer st1.world lid pB.id pA.id
          { st1 with world := r.1, events := st1.events ++ r.2.1,
                     touts := st1.touts ++ r.2.2 }
        else
          let angle := env.atan2 dy dx
          let overlap := touchDistance - distance
          let totalMass := pA.size + pB.size
          let massRatioA := pA.size / totalMass
          let massRatioB := pB.size / totalMass
          let separation := overlap * (1/2)
          let separationX := env.cos angle * separation
          let separationY := env.sin angle * separation
          let pA1 := { pA with x := pA.x + separationX * massRatioB,
                               y := pA.y + separationY * massRatioB }
          let pB1 := { pB with x := pB.x - separationX * massRatioA,
                               y := pB.y - separationY * massRatioA }
          let pA2 := { pA1 with input :=
            ⟨(pA.input.x * (massRatioA - massRatioB) + 2 * massRatioB * pB.input.x) * (4/5),
             (pA.input.y * (massRatioA - massRatioB) + 2 * massRatioB * pB.input.y) * (4/5)⟩ }
          let pB2 := { pB1 with input :=
            ⟨(pB.input.x * (massRatioB - massRatioA) + 2 * massRatioA * pA.input.x) * (4/5),
             (pB.input.y * (massRatioB - massRatioA) + 2 * massRatioA * pA.input.y) * (4/5)⟩ }
          writeSnapPlayer lid (writeSnapPlayer lid st i pA2) j pB2
      else st
  | _, _ => st

/- Inner loop: j runs from i+1 while j < n, n being the fixed length of
   the snapshot array; fuel = n - j iterations remain. -/
def pairInner (env : JsEnv) (lid : Nat) (i : Nat) : Nat → Nat → CollSt → CollSt
  | 0, _, st => st
  | fuel + 1, j, st => pairInner env lid i fuel (j + 1) (stepPair env lid st i j)

/- Outer loop: i runs from 0 while i < n. -/
def pairOuter (env : JsEnv) (lid : Nat) (n : Nat) : Nat → Nat → CollSt → CollSt
  | 0, _, st => st
  | fuel + 1, i, st =>
      pairOuter env lid n fuel (i + 1) (pairInner env lid i (n - (i + 1)) (i + 1) st)

/- checkPlayerCollisions, lines 706 to 793. -/
def checkPlayerCollisions (env : JsEnv) (w : World) (lid : Nat) :
    World × List Event × List PendingTimeout :=
  match findLobby w lid with
  | none => (w, [], [])
  | some L =>
      let st := pairOuter env lid L.players.length L.players.length 0 ⟨w, L.players, [], []⟩
      (st.world, st.events, st.touts)

/- The inactivity condition of line 632; a missing lastUpdate makes the
   comparison against NaN false in JavaScript. -/
def isTimedOut (now2 : ℚ) (p : Player) : Bool :=
  match p.lastUpdate with
  | some t => decide (now2 - t > 5000)
  | none => false

/- The cleanup loop of lines 630 to 640: delete, then broadcast, per
   timed-out player, iterating the entries present when the loop starts. -/
def reapLoop (lid : Nat) (now2 : ℚ) : List Player → World → World × List Event
  | [], w => (w, [])
  | p :: rest, w =>
      if isTimedOut now2 p then
        let w1 := modifyRoster w lid (fun ps => ps.filter (fun q => q.id != p.id))
        let e := broadcastToLobby w1 lid (Msg.playerDisconnected p.id)
        let r := reapLoop lid now2 rest w1
        (r.1, e ++ r.2)
      else reapLoop lid now2 rest w

def reapInactive (w : World) (lid : Nat) (now2 : ℚ) : World × List Event :=
  match findLobby w lid with
  | none => (w, [])
  | some L => reapLoop lid now2 L.players w

/- updateGameState, lines 561 to 650. now1 is the Date.now() the movement
   loop writes into lastUpdate, now2 the one the cleanup compares against;
   in the source both are read during the same synchronous tick body. -/
def updateGameState (env : JsEnv) (w : World) (lid : Nat) (deltaTime now1 now2 : ℚ) :
    World × List Event × List PendingTimeout :=
  match findLobby w lid with
  | none => (w, [], [])
  | some L =>
      if L.gameState ≠ GameState.playing then (w, [], [])
      else if L.players.length < CONFIG.minPlayersToStart then
        endGame w lid none
      else
        let w1 := setLobby w lid
          { L with players := L.players.map (movePlayer env deltaTime now1) }
        let r2 := checkFoodCollisions env w1 lid
        let r3 := checkPlayerCollisions env r2.1 lid
        let r4 := reapInactive r3.1 lid now2
        let final : World × List Event × List PendingTimeout :=
          match findLobby r4.1 lid with
          | none => (r4.1, [], [])
          | some L4 =>
              if L4.gameState = GameState.playing ∧ L4.players.length ≤ 1 then
                endGame r4.1 lid ((L4.players[0]?).map Player.id)
              else (r4.1, [], [])
        (final.1, r2.2 ++ r3.2.1 ++ r4.2 ++ final.2.1, r3.2.2 ++ final.2.2)

/- broadcastGameState, lines 835 to 850. -/
def broadcastGameState (w : World) (lid : Nat) : List Event :=
  match findLobby w lid with
  | none => []
  | some L =>
      if L.gameState ≠ GameState.playing then []
      else broadcastToLobby w lid
        (Msg.gameUpdate (L.players.map (fun p => (p.id, p.x, p.y, p.size))))

/- handleJoinLobby, lines 213 to 270. The fresh uuid is the worlds nextId
   counter; it is consumed only on the success path, as in the source. -/
def handleJoinLobby (w : World) (clientId lobbyId : Nat) (playerName : String) :
    World × List Event :=
  match findLobby w lobbyId with
  | none => (w, sendToClient w clientId (Msg.errorMsg "Lobby not found"))
  | some L =>
      if L.gameState ≠ GameState.lobby then
        (w, sendToClient w clientId (Msg.errorMsg "Game already in progress"))
      else if CONFIG.maxPlayers ≤ L.players.length then
        (w, sendToClient w clientId (Msg.errorMsg "Lobby is full"))
      else
        let pid := w.nextId
        let player : Player :=
          { id := pid, clientId := clientId, name := playerName,
            color := playerColors.getD (L.players.length % playerColors.length) 0,
            ready := false, x := 0, y := 0, size := CONFIG.playerStartSize,
            input := ⟨0, 0⟩, lastUpdate := none }
        let w1 := { setLobby w lobbyId { L with players := rosterSet L.players player }
                     with nextId := w.nextId + 1 }
        let w2 := updateClient w1 clientId
          (fun c => { c with lobbyId := some lobbyId, playerId := some pid })
        (w2, sendToClient w2 clientId (Msg.welcome clientId pid lobbyId)
              ++ broadcastLobbyUpdate w2 lobbyId)

/- startCountdown, lines 422 to 451: set state and counter, broadcast the
   initial value, then install the interval. -/
def startCountdown (w : World) (lid : Nat) : World × List Event :=
  match findLobby w lid with
  | none => (w, [])
  | some L =>
      let L1 := { L with gameState := GameState.countdown, countdown := CONFIG.countdownTime }
      let w1 := setLobby w lid L1
      let evs := broadcastToLobby w1 lid (Msg.countdownMsg L1.countdown)
      (setLobby w1 lid { L1 with countdownInterval := true }, evs)

/- checkGameStart, lines 408 to 419. -/
def checkGameStart (w : World) (lid : Nat) : World × List Event :=
  match findLobby w lid with
  | none => (w, [])
  | some L =>
      if L.gameState ≠ GameState.lobby then (w, [])
      else if CONFIG.minPlayersToStart ≤ L.players.length ∧ L.players.all (fun p => p.ready) then
        startCountdown w lid
      else (w, [])

/- handleToggleReady, lines 273 to 291. -/
def handleToggleReady (w : World) (clientId lobbyId : Nat) : World × List Event :=
  match findClient w clientId with
  | none => (w, [])
  | some c =>
      match c.playerId with
      | none => (w, [])
      | some pid =>
          match findLobby w lobbyId with
          | none => (w, [])
          | some L =>
              match rosterGet L.players pid with
              | none => (w, [])
              | some _ =>
                  let w1 := modifyRoster w lobbyId (fun ps => ps.map
                    (fun q => if q.id == pid then { q with ready := !q.ready } else q))
                  let evs := broadcastLobbyUpdate w1 lobbyId
                  let r := checkGameStart w1 lobbyId
                  (r.1, evs ++ r.2)

/- handlePlayerInput, lines 294 to 314: the stored input becomes the
   normalized vector, or zero for zero input. -/
def handlePlayerInput (env : JsEnv) (w : World) (clientId lobbyId : Nat) (input : Vec2) :
    World :=
  match findLobby w lobbyId with
  | none => w
  | some L =>
      if L.gameState ≠ GameState.playing then w
      else
        match findClient w clientId with
        | none => w
        | some c =>
            match c.playerId with
            | none => w
            | some pid =>
                match rosterGet L.players pid with
                | none => w
                | some _ =>
                    let len := env.sqrt (input.x * input.x + input.y * input.y)
                    let newInput : Vec2 :=
                      if len > 0 then ⟨input.x / len, input.y / len⟩ else ⟨0, 0⟩
                    modifyRoster w lobbyId (fun ps => ps.map
                      (fun q => if q.id == pid then { q with input := newInput } else q))

/- initializeGamePositions, lines 483 to 500. -/
def initializeGamePositions (env : JsEnv) (w : World) (lid : Nat) : World :=
  match findLobby w lid with
  | none => w
  | some L =>
      let radius := min CONFIG.mapWidth CONFIG.mapHeight / 3
      let angleStep := 2 * env.pi / (L.players.length : ℚ)
      setLobby w lid { L with players := L.players.mapIdx (fun idx p =>
        let angle := angleStep * (idx : ℚ)
        { p with x := env.cos angle * radius, y := env.sin angle * radius,
                 size := CONFIG.playerStartSize, input := ⟨0, 0⟩ }) }

/- generateFood, lines 503 to 515: foodCount items, two draws each. -/
def generateFood (env : JsEnv) (w : World) (lid : Nat) : World :=
  match findLobby w lid with
  | none => w
  | some L =>
      let foods := (List.range CONFIG.foodCount).map (fun i =>
        (⟨(env.rng (w.rngK + 2 * i) * 2 - 1) * CONFIG.mapWidth,
          (env.rng (w.rngK + 2 * i + 1) * 2 - 1) * CONFIG.mapHeight⟩ : Vec2))
      { setLobby w lid { L with foodItems := foods }
          with rngK := w.rngK + 2 * CONFIG.foodCount }

/- startGameTick, lines 518 to 558: only the installation of the interval
   is state; the tick body is updateGameState plus broadcastGameState. -/
def startGameTick (w : World) (lid : Nat) : World :=
  modifyLobbyIf w lid (fun L => { L with gameTickInterval := true })

/- startGame, lines 454 to 480. -/
def startGame (env : JsEnv) (w : World) (lid : Nat) : World × List Event :=
  match findLobby w lid with
  | none => (w, [])
  | some L =>
      let w1 := setLobby w lid { L with gameState := GameState.playing }
      let w2 := initializeGamePositions env w1 lid
      let w3 := generateFood env w2 lid
      let evs :=
        match findLobby w3 lid with
        | some L3 =>
            broadcastToLobby w3 lid
              (Msg.gameStart (L3.players.map (fun p => (p.id, p.x, p.y, p.size))) L3.foodItems)
        | none => []
      (startGameTick w3 lid, evs)

/- The countdown interval body of lines 436 to 450: decrement; broadcast
   while positive; at zero clear the interval and start the game. -/
def countdownTick (env : JsEnv) (w : World) (lid : Nat) : World × List Event :=
  match findLobby w lid with
  | none => (w, [])
  | some L =>
      let L1 := { L with countdown := L.countdown - 1 }
      let w1 := setLobby w lid L1
      if L1.countdown > 0 then
        (w1, broadcastToLobby w1 lid (Msg.countdownMsg L1.countdown))
      else
        startGame env (setLobby w1 lid { L1 with countdownInterval := false }) lid

/- handleRequestLobby, lines 317 to 355: the hard reset. -/
def handleRequestLobby (w : World) (clientId : Nat) : World × List Event :=
  match findClient w clientId with
  | none => (w, [])
  | some c =>
      match c.lobbyId with
      | none => (w, [])
      | some lid =>
          match findLobby w lid with
          | none => (w, [])
          | some L =>
              let L1 := { L with
                countdownInterval := false, gameTickInterval := false,
                gameState := GameState.lobby, foodItems := [],
                countdown := CONFIG.countdownTime,
                players := L.players.map (fun p =>
                  { p with x := 0, y := 0, size := CONFIG.playerStartSize,
                           ready := false, input := ⟨0, 0⟩ }) }
              let w1 := setLobby w lid L1
              (w1, broadcastToLobby w1 lid Msg.forceLobby ++ broadcastLobbyUpdate w1 lid)

/- handleClientDisconnect, lines 358 to 385. -/
def handleClientDisconnect (w : World) (clientId : Nat) :
    World × List Event × List PendingTimeout :=
  match findClient w clientId with
  | none => (w, [], [])
  | some c =>
      let r : World × List Event × List PendingTimeout :=
        match c.lobbyId with
        | none => (w, [], [])
        | some lid =>
            match findLobby w lid, c.playerId with
            | some _, some pid =>
                let w1 := modifyRoster w lid (fun ps => ps.filter (fun q => q.id != pid))
                let e1 := broadcastToLobby w1 lid (Msg.playerEaten pid none)
                match findLobby w1 lid with
                | some L1 =>
                    if L1.gameState = GameState.playing ∧ L1.players.length ≤ 1 then
                      let r2 := endGame w1 lid ((L1.players[0]?).map Player.id)
                      (r2.1, e1 ++ r2.2.1, r2.2.2)
                    else (w1, e1, [])
                | none => (w1, e1, [])
            | _, _ => (w, [], [])
      ({ r.1 with clients := r.1.clients.filter (fun cl => cl.id != clientId) }, r.2.1, r.2.2)

/- A structurally recursive integer square root: the largest k at most
   fuel with k * k ≤ n, so with fuel = n the usual floor square root. -/
def natSqrtGo (n : Nat) : Nat → Nat
  | 0 => 0
  | fuel + 1 => if (fuel + 1) * (fuel + 1) ≤ n then fuel + 1 else natSqrtGo n fuel

def natSqrt (n : Nat) : Nat :=
  natSqrtGo n n

/- An exact rational square root for perfect squares; it agrees with
   Math.sqrt on every argument the concrete examples below evaluate it
   at. -/
def ratSqrt (q : ℚ) : ℚ :=
  let n := natSqrt q.num.toNat
  let d := natSqrt q.den
  if 0 ≤ q.num ∧ n * n = q.num.toNat ∧ d * d = q.den then (n : ℚ) / (d : ℚ) else 0

/- A concrete instantiation of the oracle used by the closed examples: the
   square root is exact on the arguments arising there, pow is exercised
   only at exponent one half, and the random stream is constantly one
   half, which lies in the interval a Math.random draw lies in. -/
def exactEnv : JsEnv :=
  { sqrt := ratSqrt, pow := fun x _ => ratSqrt x,
    cos := fun _ => 1, sin := fun _ => 0, atan2 := fun _ _ => 0,
    pi := 314159 / 100000, rng := fun _ => 1/2 }

/- The operations that mutate server state, for stating state invariants:
   each constructor applies the handler of the same name. -/
inductive Action where
  | connect (clientId : Nat)
  | createLobbyA (code : Nat)
  | join (clientId lobbyId : Nat) (playerName : String)
  | toggleReady (clientId lobbyId : Nat)
  | playerInput (clientId lobbyId : Nat) (input : Vec2)
  | requestLobby (clientId : Nat)
  | disconnect (clientId : Nat)
  | countdownTickA (lobbyId : Nat)
  | gameTick (lobbyId : Nat) (deltaTime now1 now2 : ℚ)
  | gameOverTimeoutA (lobbyId : Nat)

def applyAction (env : JsEnv) (a : Action) (w : World) : World :=
  match a with
  | .connect cid => { w with clients := w.clients ++ [⟨cid, none, none, true⟩] }
  | .createLobbyA code => createLobby w code
  | .join cid lid nm => (handleJoinLobby w cid lid nm).1
  | .toggleReady cid lid => (handleToggleReady w cid lid).1
  | .playerInput cid lid v => handlePlayerInput env w cid lid v
  | .requestLobby cid => (handleRequestLobby w cid).1
  | .disconnect cid => (handleClientDisconnect w cid).1
  | .countdownTickA lid => (countdownTick env w lid).1
  | .gameTick lid dt n1 n2 => (updateGameState env w lid dt n1 n2).1
  | .gameOverTimeoutA lid => (runGameOverTimeout w lid).1

/- Registry lemmas. -/

theorem clients_setLobby (w : World) (lid : Nat) (L : Lobby) :
    (setLobby w lid L).clients = w.clients := rfl

theorem findClient_setLobby (w : World) (lid : Nat) (L : Lobby) (cid : Nat) :
    findClient (setLobby w lid L) cid = findClient w cid := rfl

theorem lobbies_updateClient (w : World) (cid : Nat) (f : Client → Client) :
    (updateClient w cid f).lobbies = w.lobbies := rfl

theorem findLobby_updateClient (w : World) (cid : Nat) (f : Client → Client) (lid : Nat) :
    findLobby (updateClient w cid f) lid = findLobby w lid := rfl

theorem find?_set_assoc (lid : Nat) (L : Lobby) :
    ∀ l : List (Nat × Lobby), (l.find? (fun e => e.1 == lid)).isSome →
      ((l.map (fun e => if e.1 == lid then (e.1, L) else e)).find? (fun e => e.1 == lid))
        = some (lid, L)
  | [], h => by simp [List.find?] at h
  | a :: t, h => by
      by_cases ha : a.1 = lid
      · simp [List.find?, ha]
      · rw [List.find?_cons_of_neg t (by simpa using ha)] at h
        rw [List.map_cons, if_neg (by simpa using ha),
            List.find?_cons_of_neg _ (by simpa using ha)]
        exact find?_set_assoc lid L t h

theorem find?_set_assoc_none (lid : Nat) (L : Lobby) :
    ∀ l : List (Nat × Lobby), l.find? (fun e => e.1 == lid) = none →
      (l.map (fun e => if e.1 == lid then (e.1, L) else e)) = l
  | [], _ => rfl
  | a :: t, h => by
      by_cases ha : a.1 = lid
      · simp [List.find?, ha] at h
      · rw [List.find?_cons_of_neg t (by simpa using ha)] at h
        rw [List.map_cons, if_neg (by simpa using ha)]
        rw [find?_set_assoc_none lid L t h]

theorem findLobby_setLobby_self {w : World} {lid : Nat} (L : Lobby)
    (h : (findLobby w lid).isSome) : findLobby (setLobby w lid L) lid = some L := by
  unfold findLobby at h ⊢
  unfold setLobby
  rw [Option.isSome_map'] at h
  rw [find?_set_assoc lid L w.lobbies h]
  rfl

theorem isSome_findLobby_setLobby {w : World} {lid : Nat} (L : Lobby)
    (h : (findLobby w lid).isSome) : (findLobby (setLobby w lid L) lid).isSome := by
  rw [findLobby_setLobby_self L h]
  rfl

theorem findLobby_rngK (w : World) (k : Nat) (lid : Nat) :
    findLobby { w with rngK := k } lid = findLobby w lid := rfl

theorem findLobby_nextId (w : World) (k : Nat) (lid : Nat) :
    findLobby { w with nextId := k } lid = findLobby w lid := rfl

theorem findLobby_modifyRoster_self {w : World} {lid : Nat} {L : Lobby}
    (f : List Player → List Player) (h : findLobby w lid = some L) :
    findLobby (modifyRoster w lid f) lid = some { L with players := f L.players } := by
  unfold modifyRoster modifyLobbyIf
  rw [h]
  exact findLobby_setLobby_self _ (by rw [h]; rfl)

theorem clients_modifyRoster (w : World) (lid : Nat) (f : List Player → List Player) :
    (modifyRoster w lid f).clients = w.clients := by
  unfold modifyRoster modifyLobbyIf
  cases findLobby w lid <;> rfl

theorem rosterOf_eq_of_findLobby {w : World} {lid : Nat} {L : Lobby}
    (h : findLobby w lid = some L) : rosterOf w lid = L.players := by
  unfold rosterOf
  rw [h]

theorem find?_map_update (cid : Nat) (f : Client → Client) (hf : ∀ c, (f c).id = c.id) :
    ∀ l : List Client,
      ((l.map (fun c => if c.id == cid then f c else c)).find? (fun c => c.id == cid))
        = (l.find? (fun c => c.id == cid)).map f
  | [] => rfl
  | a :: t => by
      by_cases ha : a.id = cid
      · have hfa : ((f a).id == cid) = true := by simp [hf a, ha]
        simp [List.find?, ha, hfa]
      · rw [List.map_cons, if_neg (by simpa using ha),
            List.find?_cons_of_neg _ (by simpa using ha),
            List.find?_cons_of_neg _ (by simpa using ha)]
        exact find?_map_update cid f hf t

theorem findClient_updateClient {w : World} (cid : Nat) (f : Client → Client)
    (hf : ∀ c, (f c).id = c.id) :
    findClient (updateClient w cid f) cid = (findClient w cid).map f := by
  unfold findClient updateClient
  exact find?_map_update cid f hf w.clients

theorem findClient_id {w : World} {x : Nat} {c : Client}
    (h : findClient w x = some c) : c.id = x := by
  have := List.find?_some h
  simpa using this

/- Membership of a lobby broadcast recipient list. -/
theorem mem_lobbyRecipients {w : World} {L : Lobby} {r : Nat}
    (h : r ∈ lobbyRecipients w L) :
    ∃ p ∈ L.players, ∃ c, findClient w p.clientId = some c ∧ c.wsOpen = true ∧ r = c.id := by
  unfold lobbyRecipients at h
  obtain ⟨p, hp, hpr⟩ := List.mem_filterMap.mp h
  refine ⟨p, hp, ?_⟩
  cases hc : findClient w p.clientId with
  | none => rw [hc] at hpr; cases hpr
  | some c =>
      rw [hc] at hpr
      by_cases ho : c.wsOpen
      · exact ⟨c, rfl, ho, by simpa [ho] using hpr.symm⟩
      · simp [ho] at hpr

theorem not_mem_lobbyRecipients {w : World} {L : Lobby} {x : Nat}
    (h : ∀ p ∈ L.players, p.clientId ≠ x) : x ∉ lobbyRecipients w L := by
  intro hx
  obtain ⟨p, hp, c, hc, _, hxc⟩ := mem_lobbyRecipients hx
  exact h p hp (by rw [← findClient_id hc, ← hxc])

theorem broadcastToLobby_payload {w : World} {lid : Nat} {m : Msg} {ev : Event}
    (h : ev ∈ broadcastToLobby w lid m) : ev.payload = m := by
  unfold broadcastToLobby at h
  cases hL : findLobby w lid with
  | none => rw [hL] at h; cases h
  | some L =>
      rw [hL] at h
      simp only [List.mem_singleton] at h
      subst h
      rfl

theorem sendToClient_eq {w : World} {cid : Nat} {m : Msg} {ev : Event}
    (h : ev ∈ sendToClient w cid m) : ev = ⟨[cid], m⟩ := by
  unfold sendToClient at h
  cases hc : findClient w cid with
  | none => rw [hc] at h; cases h
  | some c =>
      rw [hc] at h
      by_cases ho : c.wsOpen
      · simp [ho] at h; simp [h]
      · simp [ho] at h

/- Event classification: no part of the simulation other than the
   inactivity cleanup ever emits a player_disconnected payload. -/
def NotDisc (e : Event) : Prop :=
  ∀ pid, e.payload ≠ Msg.playerDisconnected pid

theorem notDisc_broadcast {w : World} {lid : Nat} {m : Msg} {ev : Event}
    (hm : ∀ pid, m ≠ Msg.playerDisconnected pid)
    (h : ev ∈ broadcastToLobby w lid m) : NotDisc ev := by
  intro pid
  rw [broadcastToLobby_payload h]
  exact hm pid

theorem notDisc_send {w : World} {cid : Nat} {m : Msg} {ev : Event}
    (hm : ∀ pid, m ≠ Msg.playerDisconnected pid)
    (h : ev ∈ sendToClient w cid m) : NotDisc ev := by
  intro pid
  rw [sendToClient_eq h]
  exact hm pid

theorem endGame_events {w : World} {lid : Nat} {x : Option Nat} {ev : Event}
    (h : ev ∈ (endGame w lid x).2.1) : NotDisc ev := by
  unfold endGame at h
  split at h
  · cases h
  · split at h
    · cases h
    · exact notDisc_broadcast (fun pid => by simp) h

theorem absorbStep1_events {w : World} {lid a b : Nat} {ev : Event}
    (h : ev ∈ (absorbStep1 w lid a b).2) : NotDisc ev := by
  unfold absorbStep1 at h
  split at h
  · rcases List.mem_append.mp h with h1 | h2
    · exact notDisc_broadcast (fun pid => by simp) h1
    · exact notDisc_send (fun pid => by simp) h2
  · cases h

theorem absorbPlayer_events {w : World} {lid a b : Nat} {ev : Event}
    (h : ev ∈ (absorbPlayer w lid a b).2.1) : NotDisc ev := by
  unfold absorbPlayer at h
  split at h
  · cases h
  · dsimp only at h
    split at h
    · exact absorbStep1_events h
    · split at h
      · rcases List.mem_append.mp h with h1 | h2
        · exact absorbStep1_events h1
        · exact endGame_events h2
      · exact absorbStep1_events h

/- Size and bookkeeping relation between a player before and after a
   phase of the tick: same id, size did not shrink, lastUpdate kept. -/
def PairRel (p q : Player) : Prop :=
  q.id = p.id ∧ p.size ≤ q.size ∧ q.lastUpdate = p.lastUpdate

theorem pairRel_refl (p : Player) : PairRel p p := ⟨rfl, le_refl _, rfl⟩

theorem pairRel_trans {p q r : Player} (h1 : PairRel p q) (h2 : PairRel q r) : PairRel p r :=
  ⟨h2.1.trans h1.1, h1.2.1.trans h2.2.1, h2.2.2.trans h1.2.2⟩

/- Existence of a non-shrunk ancestor for every member of the result. -/
def StepOK (before after : List Player) : Prop :=
  ∀ q ∈ after, ∃ p ∈ before, PairRel p q

theorem stepOK_refl (ps : List Player) : StepOK ps ps :=
  fun q hq => ⟨q, hq, pairRel_refl q⟩

theorem stepOK_trans {a b c : List Player} (h1 : StepOK a b) (h2 : StepOK b c) :
    StepOK a c := by
  intro q hq
  obtain ⟨m, hm, hr2⟩ := h2 q hq
  obtain ⟨p, hp, hr1⟩ := h1 m hm
  exact ⟨p, hp, pairRel_trans hr1 hr2⟩

/- Food collision lemmas. -/

theorem size_le_add_growth (s : ℚ) : s ≤ s + CONFIG.growthRate := by
  unfold CONFIG.growthRate
  linarith

theorem foodStep_rel (env : JsEnv) (recips : List Nat) (p : Player) (st : FoodSt) (i : Nat) :
    PairRel p (foodStep env recips p st i).1 := by
  unfold foodStep
  split
  · exact pairRel_refl p
  · dsimp only
    split
    · split
      · exact ⟨rfl, size_le_add_growth p.size, rfl⟩
      · exact ⟨rfl, size_le_add_growth p.size, rfl⟩
    · exact pairRel_refl p

theorem foodStep_events (env : JsEnv) (recips : List Nat) (p : Player) (st : FoodSt)
    (i : Nat) : ∀ e ∈ (foodStep env recips p st i).2.events, e ∈ st.events ∨ NotDisc e := by
  unfold foodStep
  split
  · intro e he; exact Or.inl he
  · dsimp only
    split
    · split
      · intro e he
        rcases List.mem_append.mp he with h1 | h2
        · exact Or.inl h1
        · right
          rcases List.mem_cons.mp h2 with h3 | h3
          · intro pid; rw [h3]; simp
          · obtain ⟨nf, hnf1, hnf2⟩ := List.mem_map.mp h3
            intro pid
            rw [← hnf2]
            simp
      · intro e he
        rcases List.mem_append.mp he with h1 | h2
        · exact Or.inl h1
        · right
          intro pid
          rw [List.mem_singleton.mp h2]
          simp
    · intro e he
      exact Or.inl he

theorem foodScanFrom_rel (env : JsEnv) (recips : List Nat) :
    ∀ (i : Nat) (p : Player) (st : FoodSt),
      PairRel p (foodScanFrom env recips p st i).1
  | 0, p, st => foodStep_rel env recips p st 0
  | i + 1, p, st => by
      unfold foodScanFrom
      exact pairRel_trans (foodStep_rel env recips p st (i + 1))
        (foodScanFrom_rel env recips i _ _)

theorem foodScanFrom_events (env : JsEnv) (recips : List Nat) :
    ∀ (i : Nat) (p : Player) (st : FoodSt),
      ∀ e ∈ (foodScanFrom env recips p st i).2.events, e ∈ st.events ∨ NotDisc e
  | 0, p, st => foodStep_events env recips p st 0
  | i + 1, p, st => by
      unfold foodScanFrom
      intro e he
      rcases foodScanFrom_events env recips i _ _ e he with h1 | h2
      · exact foodStep_events env recips p st (i + 1) e h1
      · exact Or.inr h2

theorem foodScanPlayer_rel (env : JsEnv) (recips : List Nat) (p : Player) (st : FoodSt) :
    PairRel p (foodScanPlayer env recips p st).1 := by
  unfold foodScanPlayer
  by_cases h : st.foods.length = 0
  · rw [if_pos h]; exact pairRel_refl p
  · rw [if_neg h]; exact foodScanFrom_rel env recips _ p st

theorem foodScanPlayer_events (env : JsEnv) (recips : List Nat) (p : Player) (st : FoodSt) :
    ∀ e ∈ (foodScanPlayer env recips p st).2.events, e ∈ st.events ∨ NotDisc e := by
  unfold foodScanPlayer
  by_cases h : st.foods.length = 0
  · rw [if_pos h]; intro e he; exact Or.inl he
  · rw [if_neg h]; exact foodScanFrom_events env recips _ p st

theorem foodPlayersLoop_stepOK (env : JsEnv) (recips : List Nat) :
    ∀ (ps : List Player) (st : FoodSt),
      StepOK ps (foodPlayersLoop env recips ps st).1
  | [], _ => by intro q hq; cases hq
  | p :: rest, st => by
      unfold foodPlayersLoop
      intro q hq
      rcases List.mem_cons.mp hq with rfl | h2
      · exact ⟨p, List.mem_cons_self p rest, foodScanPlayer_rel env recips p st⟩
      · obtain ⟨p0, hp0, hr⟩ := foodPlayersLoop_stepOK env recips rest _ q h2
        exact ⟨p0, List.mem_cons_of_mem p hp0, hr⟩

theorem foodPlayersLoop_events (env : JsEnv) (recips : List Nat) :
    ∀ (ps : List Player) (st : FoodSt),
      ∀ e ∈ (foodPlayersLoop env recips ps st).2.events, e ∈ st.events ∨ NotDisc e
  | [], _ => by intro e he; exact Or.inl he
  | p :: rest, st => by
      unfold foodPlayersLoop
      intro e he
      rcases foodPlayersLoop_events env recips rest _ e he with h1 | h2
      · exact foodScanPlayer_events env recips p st e h1
      · exact Or.inr h2

theorem checkFoodCollisions_roster {env : JsEnv} {w : World} {lid : Nat} {L : Lobby}
    (hL : findLobby w lid = some L) :
    findLobby (checkFoodCollisions env w lid).1 lid
        = some { L with
            players := (foodPlayersLoop env (lobbyRecipients w L) L.players
              ⟨L.foodItems, w.rngK, []⟩).1,
            foodItems := (foodPlayersLoop env (lobbyRecipients w L) L.players
              ⟨L.foodItems, w.rngK, []⟩).2.foods } := by
  unfold checkFoodCollisions
  rw [hL]
  exact findLobby_setLobby_self _ (by rw [hL]; rfl)

theorem checkFoodCollisions_stepOK {env : JsEnv} {w : World} {lid : Nat} {L : Lobby}
    (hL : findLobby w lid = some L) :
    StepOK L.players (rosterOf (checkFoodCollisions env w lid).1 lid) := by
  rw [rosterOf_eq_of_findLobby (checkFoodCollisions_roster hL)]
  exact foodPlayersLoop_stepOK env (lobbyRecipients w L) L.players _

theorem checkFoodCollisions_events (env : JsEnv) (w : World) (lid : Nat) :
    ∀ e ∈ (checkFoodCollisions env w lid).2, NotDisc e := by
  unfold checkFoodCollisions
  cases hL : findLobby w lid with
  | none => intro e he; cases he
  | some L =>
      intro e he
      rcases foodPlayersLoop_events env (lobbyRecipients w L) L.players
          ⟨L.foodItems, w.rngK, []⟩ e he with h1 | h2
      · cases h1
      · exact h2

theorem checkFoodCollisions_clients (env : JsEnv) (w : World) (lid : Nat) :
    (checkFoodCollisions env w lid).1.clients = w.clients := by
  unfold checkFoodCollisions
  cases findLobby w lid <;> rfl

/- Frame lemmas: an update of lobby lid leaves every other key alone. -/

theorem find?_map_set_ne (lid lid2 : Nat) (L : Lobby) (h : lid2 ≠ lid) :
    ∀ l : List (Nat × Lobby),
      ((l.map (fun e => if e.1 == lid then (e.1, L) else e)).find? (fun e => e.1 == lid2))
        = l.find? (fun e => e.1 == lid2)
  | [] => rfl
  | a :: t => by
      by_cases ha : a.1 = lid
      · rw [List.map_cons, if_pos (by simpa using ha)]
        rw [List.find?_cons_of_neg _ (by simp [ha]; exact Ne.symm h),
            List.find?_cons_of_neg _ (by simp [ha]; exact Ne.symm h)]
        exact find?_map_set_ne lid lid2 L h t
      · rw [List.map_cons, if_neg (by simpa using ha)]
        by_cases hb : a.1 = lid2
        · rw [List.find?_cons_of_pos _ (by simpa using hb),
              List.find?_cons_of_pos _ (by simpa using hb)]
        · rw [List.find?_cons_of_neg _ (by simpa using hb),
              List.find?_cons_of_neg _ (by simpa using hb)]
          exact find?_map_set_ne lid lid2 L h t

theorem findLobby_setLobby_ne {w : World} {lid lid2 : Nat} {L : Lobby} (h : lid2 ≠ lid) :
    findLobby (setLobby w lid L) lid2 = findLobby w lid2 := by
  unfold findLobby setLobby
  rw [find?_map_set_ne lid lid2 L h w.lobbies]

theorem rosterOf_setLobby_ne {w : World} {lid lid2 : Nat} {L : Lobby} (h : lid2 ≠ lid) :
    rosterOf (setLobby w lid L) lid2 = rosterOf w lid2 := by
  unfold rosterOf
  rw [findLobby_setLobby_ne h]

theorem rosterOf_modifyRoster_ne {w : World} {lid lid2 : Nat}
    (f : List Player → List Player) (h : lid2 ≠ lid) :
    rosterOf (modifyRoster w lid f) lid2 = rosterOf w lid2 := by
  unfold modifyRoster modifyLobbyIf
  cases findLobby w lid with
  | none => rfl
  | some L => exact rosterOf_setLobby_ne h

theorem rosterOf_updateClient (w : World) (cid : Nat) (f : Client → Client) (lid : Nat) :
    rosterOf (updateClient w cid f) lid = rosterOf w lid := rfl

theorem rosterOf_rngK (w : World) (k : Nat) (lid : Nat) :
    rosterOf { w with rngK := k } lid = rosterOf w lid := rfl

theorem rosterOf_endGame {w : World} {lid : Nat} {x : Option Nat} (lid2 : Nat) :
    rosterOf (endGame w lid x).1 lid2 = rosterOf w lid2 := by
  unfold endGame
  split
  · rfl
  · rename_i L hL
    split
    · rfl
    · dsimp only
      by_cases h2 : lid2 = lid
      · subst h2
        rw [rosterOf_eq_of_findLobby (findLobby_setLobby_self _ (by rw [hL]; rfl)),
            rosterOf_eq_of_findLobby hL]
      · exact rosterOf_setLobby_ne h2

/- The weaker size relation movement provides: id and size are kept, the
   activity stamp is rewritten. -/
def SizeOK (before after : List Player) : Prop :=
  ∀ q ∈ after, ∃ p ∈ before, q.id = p.id ∧ p.size ≤ q.size

theorem sizeOK_of_stepOK {a b : List Player} (h : StepOK a b) : SizeOK a b := by
  intro q hq
  obtain ⟨p, hp, hr⟩ := h q hq
  exact ⟨p, hp, hr.1, hr.2.1⟩

theorem sizeOK_trans {a b c : List Player} (h1 : SizeOK a b) (h2 : SizeOK b c) :
    SizeOK a c := by
  intro q hq
  obtain ⟨m, hm, hid2, hs2⟩ := h2 q hq
  obtain ⟨p, hp, hid1, hs1⟩ := h1 m hm
  exact ⟨p, hp, hid2.trans hid1, hs1.trans hs2⟩

def AllLU (n1 : ℚ) (ps : List Player) : Prop :=
  ∀ p ∈ ps, p.lastUpdate = some n1

theorem allLU_of_stepOK {n1 : ℚ} {a b : List Player} (h : StepOK a b) (ha : AllLU n1 a) :
    AllLU n1 b := by
  intro q hq
  obtain ⟨p, hp, hr⟩ := h q hq
  rw [hr.2.2]
  exact ha p hp

/- Movement preserves id and size and stamps lastUpdate. -/
theorem movePlayer_fields (env : JsEnv) (dt n1 : ℚ) (p : Player) :
    (movePlayer env dt n1 p).id = p.id ∧ (movePlayer env dt n1 p).size = p.size ∧
      (movePlayer env dt n1 p).lastUpdate = some n1 := by
  unfold movePlayer
  dsimp only
  repeat' split
  all_goals simp

theorem moved_sizeOK (env : JsEnv) (dt n1 : ℚ) (ps : List Player) :
    SizeOK ps (ps.map (movePlayer env dt n1)) := by
  intro q hq
  obtain ⟨p, hp, hpq⟩ := List.mem_map.mp hq
  obtain ⟨hid, hsz, _⟩ := movePlayer_fields env dt n1 p
  exact ⟨p, hp, by rw [← hpq, hid], by rw [← hpq, hsz]⟩

theorem moved_allLU (env : JsEnv) (dt n1 : ℚ) (ps : List Player) :
    AllLU n1 (ps.map (movePlayer env dt n1)) := by
  intro q hq
  obtain ⟨p, _, hpq⟩ := List.mem_map.mp hq
  rw [← hpq]
  exact (movePlayer_fields env dt n1 p).2.2

/- Invariants of the pair collision loop. snap0 is the snapshot taken at
   loop entry; AliasInv states that every roster entry is one of the
   snapshot objects, as the in-place mutation of the source guarantees. -/

def SnapInv (snap0 : List Player) (st : CollSt) : Prop :=
  List.Forall₂ PairRel snap0 st.snap

def AliasInv (lid : Nat) (st : CollSt) : Prop :=
  ∀ q ∈ rosterOf st.world lid, q ∈ st.snap

def FrameInv (lid : Nat) (w0 : World) (st : CollSt) : Prop :=
  ∀ lid2, lid2 ≠ lid → rosterOf st.world lid2 = rosterOf w0 lid2

theorem forall₂_pairRel_mem_right :
    ∀ {l1 l2 : List Player}, List.Forall₂ PairRel l1 l2 →
      ∀ b ∈ l2, ∃ a ∈ l1, PairRel a b := by
  intro l1 l2 h
  induction h with
  | nil => intro b hb; cases hb
  | cons hab _ ih =>
      intro b hb
      rcases List.mem_cons.mp hb with rfl | hb2
      · exact ⟨_, List.mem_cons_self _ _, hab⟩
      · obtain ⟨a, ha, hr⟩ := ih b hb2
        exact ⟨a, List.mem_cons_of_mem _ ha, hr⟩

theorem forall₂_pairRel_set :
    ∀ {l1 l2 : List Player} {i : Nat} {b p : Player},
      List.Forall₂ PairRel l1 l2 → l2[i]? = some b → PairRel b p →
      List.Forall₂ PairRel l1 (l2.set i p) := by
  intro l1 l2 i b p h
  induction h generalizing i with
  | nil => intro hb _; simp at hb
  | cons hab htail ih =>
      intro hb hbp
      cases i with
      | zero =>
          simp only [List.getElem?_cons_zero, Option.some_inj] at hb
          subst hb
          exact List.Forall₂.cons (pairRel_trans hab hbp) htail
      | succ i =>
          simp only [List.getElem?_cons_succ] at hb
          exact List.Forall₂.cons hab (ih hb hbp)

theorem mem_map_replace {ps : List Player} {p q : Player}
    (hq : q ∈ ps.map (fun r => if r.id == p.id then p else r)) :
    q = p ∨ (q ∈ ps ∧ q.id ≠ p.id) := by
  obtain ⟨r, hr, hrq⟩ := List.mem_map.mp hq
  by_cases hid : r.id = p.id
  · left; rw [← hrq, if_pos (by simpa using hid)]
  · right
    rw [← hrq, if_neg (by simpa using hid)]
    exact ⟨hr, hid⟩

theorem writeSnapPlayer_invs {lid : Nat} {st : CollSt} {i : Nat} {p : Player}
    {snap0 : List Player} {w0 : World}
    (hs : SnapInv snap0 st) (ha : AliasInv lid st) (hf : FrameInv lid w0 st)
    (hlen : i < st.snap.length)
    (hrel : ∀ b, st.snap[i]? = some b → PairRel b p) :
    SnapInv snap0 (writeSnapPlayer lid st i p) ∧
      AliasInv lid (writeSnapPlayer lid st i p) ∧
      FrameInv lid w0 (writeSnapPlayer lid st i p) := by
  have hb : st.snap[i]? = some st.snap[i] := List.getElem?_eq_getElem hlen
  refine ⟨forall₂_pairRel_set hs hb (hrel _ hb), ?_, ?_⟩
  · intro q hq
    unfold writeSnapPlayer at hq ⊢
    dsimp only at hq ⊢
    have hq2 : q ∈ (rosterOf st.world lid).map (fun r => if r.id == p.id then p else r) := by
      unfold modifyRoster modifyLobbyIf at hq
      cases hL : findLobby st.world lid with
      | none =>
          rw [hL] at hq
          unfold rosterOf at hq
          rw [hL] at hq
          cases hq
      | some L =>
          rw [hL] at hq
          rw [rosterOf_eq_of_findLobby (findLobby_setLobby_self _ (by rw [hL]; rfl))] at hq
          rw [rosterOf_eq_of_findLobby hL]
          exact hq
    rcases mem_map_replace hq2 with rfl | ⟨hmem, hne⟩
    · exact List.mem_set st.snap i hlen q
    · have hsnap := ha q hmem
      obtain ⟨m, hm⟩ := List.mem_iff_getElem?.mp hsnap
      have hmi : m ≠ i := by
        intro heq
        subst heq
        rw [hm] at hb
        cases hb
        exact hne (hrel _ hm).1.symm
      exact List.mem_iff_getElem?.mpr ⟨m, by rw [List.getElem?_set_ne (Ne.symm hmi)]; exact hm⟩
  · intro lid2 hlid2
    unfold writeSnapPlayer
    dsimp only
    rw [rosterOf_modifyRoster_ne _ hlid2]
    exact hf lid2 hlid2

theorem absorbStep1_roster {w : World} {lid a b : Nat} :
    (∀ q ∈ rosterOf (absorbStep1 w lid a b).1 lid, q ∈ rosterOf w lid) ∧
      (∀ lid2, lid2 ≠ lid →
        rosterOf (absorbStep1 w lid a b).1 lid2 = rosterOf w lid2) := by
  unfold absorbStep1
  split
  · constructor
    · intro q hq
      dsimp only at hq
      rw [rosterOf_updateClient] at hq
      unfold modifyRoster modifyLobbyIf at hq
      cases hL : findLobby w lid with
      | none =>
          rw [hL] at hq
          unfold rosterOf at hq
          rw [hL] at hq
          cases hq
      | some L =>
          rw [hL] at hq
          rw [rosterOf_eq_of_findLobby (findLobby_setLobby_self _ (by rw [hL]; rfl))] at hq
          rw [rosterOf_eq_of_findLobby hL]
          exact List.mem_of_mem_filter hq
    · intro lid2 h2
      dsimp only
      rw [rosterOf_updateClient, rosterOf_modifyRoster_ne _ h2]
  · exact ⟨fun q hq => hq, fun _ _ => rfl⟩

theorem absorbPlayer_roster {w : World} {lid a b : Nat} :
    (∀ q ∈ rosterOf (absorbPlayer w lid a b).1 lid, q ∈ rosterOf w lid) ∧
      (∀ lid2, lid2 ≠ lid →
        rosterOf (absorbPlayer w lid a b).1 lid2 = rosterOf w lid2) := by
  unfold absorbPlayer
  split
  · exact ⟨fun q hq => hq, fun _ _ => rfl⟩
  · dsimp only
    split
    · exact absorbStep1_roster
    · split
      · constructor
        · intro q hq
          dsimp only at hq
          rw [rosterOf_endGame] at hq
          exact absorbStep1_roster.1 q hq
        · intro lid2 h2
          dsimp only
          rw [rosterOf_endGame]
          exact absorbStep1_roster.2 lid2 h2
      · exact absorbStep1_roster

theorem stepPair_snap_length (env : JsEnv) (lid : Nat) (st : CollSt) (i j : Nat) :
    (stepPair env lid st i j).snap.length = st.snap.length := by
  unfold stepPair
  split
  · dsimp only
    split
    · split
      · simp [writeSnapPlayer]
      · split
        · simp [writeSnapPlayer]
        · simp [writeSnapPlayer]
    · rfl
  · rfl

theorem snap_size_lb {snap0 : List Player} {st : CollSt} (hs : SnapInv snap0 st)
    (hsz : ∀ p ∈ snap0, CONFIG.playerStartSize ≤ p.size) :
    ∀ q ∈ st.snap, CONFIG.playerStartSize ≤ q.size := by
  intro q hq
  obtain ⟨p, hp, hr⟩ := forall₂_pairRel_mem_right hs q hq
  exact (hsz p hp).trans hr.2.1

theorem stepPair_invs {env : JsEnv} {lid : Nat} {snap0 : List Player} {w0 : World}
    {st : CollSt} (i j : Nat) (hij : i ≠ j)
    (hsz : ∀ p ∈ snap0, CONFIG.playerStartSize ≤ p.size)
    (hs : SnapInv snap0 st) (ha : AliasInv lid st) (hf : FrameInv lid w0 st) :
    SnapInv snap0 (stepPair env lid st i j) ∧
      AliasInv lid (stepPair env lid st i j) ∧
      FrameInv lid w0 (stepPair env lid st i j) := by
  unfold stepPair
  split
  · rename_i pA pB hA hB
    dsimp only
    split
    · split
      · -- A absorbs B
        have hszB : (0 : ℚ) ≤ pB.size := by
          have := snap_size_lb hs hsz pB (List.mem_iff_getElem?.mpr ⟨j, hB⟩)
          unfold CONFIG.playerStartSize at this
          linarith
        have hiA : i < st.snap.length := (List.getElem?_eq_some.mp hA).1
        obtain ⟨hs1, ha1, hf1⟩ := writeSnapPlayer_invs hs ha hf hiA
          (fun b hb => show PairRel b { pA with
              size := pA.size + pB.size * (1/2),
              input := ⟨pA.input.x + pB.input.x * (pB.size / pA.size) * (1/2),
                        pA.input.y + pB.input.y * (pB.size / pA.size) * (1/2)⟩ } by
            rw [hA] at hb
            cases hb
            exact ⟨rfl, by dsimp only; linarith, rfl⟩)
        refine ⟨?_, ?_, ?_⟩
        · exact hs1
        · intro q hq
          exact ha1 q (absorbPlayer_roster.1 q hq)
        · intro lid2 h2
          exact (absorbPlayer_roster.2 lid2 h2).trans (hf1 lid2 h2)
      · split
        · -- B absorbs A
          have hszA : (0 : ℚ) ≤ pA.size := by
            have := snap_size_lb hs hsz pA (List.mem_iff_getElem?.mpr ⟨i, hA⟩)
            unfold CONFIG.playerStartSize at this
            linarith
          have hiB : j < st.snap.length := (List.getElem?_eq_some.mp hB).1
          obtain ⟨hs1, ha1, hf1⟩ := writeSnapPlayer_invs hs ha hf hiB
            (fun b hb => show PairRel b { pB with
                size := pB.size + pA.size * (1/2),
                input := ⟨pB.input.x + pA.input.x * (pA.size / pB.size) * (1/2),
                          pB.input.y + pA.input.y * (pA.size / pB.size) * (1/2)⟩ } by
              rw [hB] at hb
              cases hb
              exact ⟨rfl, by dsimp only; linarith, rfl⟩)
          refine ⟨?_, ?_, ?_⟩
          · exact hs1
          · intro q hq
            exact ha1 q (absorbPlayer_roster.1 q hq)
          · intro lid2 h2
            exact (absorbPlayer_roster.2 lid2 h2).trans (hf1 lid2 h2)
        · -- elastic bounce: sizes unchanged
          have hiA : i < st.snap.length := (List.getElem?_eq_some.mp hA).1
          have hiB : j < st.snap.length := (List.getElem?_eq_some.mp hB).1
          refine writeSnapPlayer_invs ?_ ?_ ?_
            (by simpa [writeSnapPlayer] using hiB)
            (fun b hb => by
              rw [show ∀ q, (writeSnapPlayer lid st i q).snap = st.snap.set i q from
                    fun q => rfl] at hb
              rw [List.getElem?_set_ne hij, hB] at hb
              cases hb
              exact ⟨rfl, le_refl _, rfl⟩)
          · exact (writeSnapPlayer_invs hs ha hf hiA (fun b hb => by
              rw [hA] at hb; cases hb; exact ⟨rfl, le_refl _, rfl⟩)).1
          · exact (writeSnapPlayer_invs hs ha hf hiA (fun b hb => by
              rw [hA] at hb; cases hb; exact ⟨rfl, le_refl _, rfl⟩)).2.1
          · exact (writeSnapPlayer_invs hs ha hf hiA (fun b hb => by
              rw [hA] at hb; cases hb; exact ⟨rfl, le_refl _, rfl⟩)).2.2
    · exact ⟨hs, ha, hf⟩
  · exact ⟨hs, ha, hf⟩

theorem pairInner_invs (env : JsEnv) (lid : Nat) (i : Nat) {snap0 : List Player}
    {w0 : World} (hsz : ∀ p ∈ snap0, CONFIG.playerStartSize ≤ p.size) :
    ∀ (fuel j : Nat) (st : CollSt), i < j →
      SnapInv snap0 st → AliasInv lid st → FrameInv lid w0 st →
      SnapInv snap0 (pairInner env lid i fuel j st) ∧
        AliasInv lid (pairInner env lid i fuel j st) ∧
        FrameInv lid w0 (pairInner env lid i fuel j st)
  | 0, _, st, _, hs, ha, hf => ⟨hs, ha, hf⟩
  | fuel + 1, j, st, hij, hs, ha, hf => by
      obtain ⟨hs1, ha1, hf1⟩ := stepPair_invs i j (Nat.ne_of_lt hij) hsz hs ha hf
      exact pairInner_invs env lid i hsz fuel (j + 1)
        (stepPair env lid st i j) (Nat.lt_succ_of_lt hij) hs1 ha1 hf1

theorem pairOuter_invs (env : JsEnv) (lid : Nat) (n : Nat) {snap0 : List Player}
    {w0 : World} (hsz : ∀ p ∈ snap0, CONFIG.playerStartSize ≤ p.size) :
    ∀ (fuel i : Nat) (st : CollSt),
      SnapInv snap0 st → AliasInv lid st → FrameInv lid w0 st →
      SnapInv snap0 (pairOuter env lid n fuel i st) ∧
        AliasInv lid (pairOuter env lid n fuel i st) ∧
        FrameInv lid w0 (pairOuter env lid n fuel i st)
  | 0, _, st, hs, ha, hf => ⟨hs, ha, hf⟩
  | fuel + 1, i, st, hs, ha, hf => by
      obtain ⟨hs1, ha1, hf1⟩ :=
        pairInner_invs env lid i hsz (n - (i + 1)) (i + 1) st (Nat.lt_succ_self i) hs ha hf
      exact pairOuter_invs env lid n hsz fuel (i + 1) _ hs1 ha1 hf1

theorem checkPlayerCollisions_stepOK {env : JsEnv} {w : World} {lid : Nat} {L : Lobby}
    (hL : findLobby w lid = some L)
    (hsz : ∀ p ∈ L.players, CONFIG.playerStartSize ≤ p.size) :
    StepOK L.players (rosterOf (checkPlayerCollisions env w lid).1 lid) ∧
      (∀ lid2, lid2 ≠ lid →
        rosterOf (checkPlayerCollisions env w lid).1 lid2 = rosterOf w lid2) := by
  unfold checkPlayerCollisions
  rw [hL]
  dsimp only
  have h0s : SnapInv L.players (⟨w, L.players, [], []⟩ : CollSt) :=
    List.forall₂_same.mpr (fun p _ => pairRel_refl p)
  have h0a : AliasInv lid (⟨w, L.players, [], []⟩ : CollSt) := by
    intro q hq
    rw [rosterOf_eq_of_findLobby hL] at hq
    exact hq
  have h0f : FrameInv lid w (⟨w, L.players, [], []⟩ : CollSt) := fun _ _ => rfl
  obtain ⟨hs, ha, hf⟩ := pairOuter_invs env lid L.players.length hsz
    L.players.length 0 _ h0s h0a h0f
  constructor
  · intro q hq
    have hq2 := ha q hq
    exact forall₂_pairRel_mem_right hs q hq2
  · exact hf

theorem stepPair_events (env : JsEnv) (lid : Nat) (st : CollSt) (i j : Nat) :
    ∀ e ∈ (stepPair env lid st i j).events, e ∈ st.events ∨ NotDisc e := by
  unfold stepPair
  split
  · dsimp only
    split
    · split
      · intro e he
        rcases List.mem_append.mp he with h1 | h2
        · exact Or.inl h1
        · exact Or.inr (absorbPlayer_events h2)
      · split
        · intro e he
          rcases List.mem_append.mp he with h1 | h2
          · exact Or.inl h1
          · exact Or.inr (absorbPlayer_events h2)
        · intro e he
          exact Or.inl he
    · intro e he
      exact Or.inl he
  · intro e he
    exact Or.inl he

theorem pairInner_events (env : JsEnv) (lid : Nat) (i : Nat) :
    ∀ (fuel j : Nat) (st : CollSt),
      ∀ e ∈ (pairInner env lid i fuel j st).events, e ∈ st.events ∨ NotDisc e
  | 0, _, _ => fun e he => Or.inl he
  | fuel + 1, j, st => by
      intro e he
      rcases pairInner_events env lid i fuel (j + 1) (stepPair env lid st i j) e he with h | h
      · exact stepPair_events env lid st i j e h
      · exact Or.inr h

theorem pairOuter_events (env : JsEnv) (lid : Nat) (n : Nat) :
    ∀ (fuel i : Nat) (st : CollSt),
      ∀ e ∈ (pairOuter env lid n fuel i st).events, e ∈ st.events ∨ NotDisc e
  | 0, _, _ => fun e he => Or.inl he
  | fuel + 1, i, st => by
      intro e he
      rcases pairOuter_events env lid n fuel (i + 1) _ e he with h | h
      · rcases pairInner_events env lid i (n - (i + 1)) (i + 1) st e h with h2 | h2
        · exact Or.inl h2
        · exact Or.inr h2
      · exact Or.inr h

theorem checkPlayerCollisions_events (env : JsEnv) (w : World) (lid : Nat) :
    ∀ e ∈ (checkPlayerCollisions env w lid).2.1, NotDisc e := by
  unfold checkPlayerCollisions
  split
  · intro e he; cases he
  · dsimp only
    intro e he
    rcases pairOuter_events env lid _ _ 0 _ e he with h | h
    · cases h
    · exact h

/- Inactivity cleanup lemmas. -/

theorem reapLoop_noop (lid : Nat) (now2 : ℚ) :
    ∀ (ps : List Player) (w : World), (∀ p ∈ ps, isTimedOut now2 p = false) →
      reapLoop lid now2 ps w = (w, [])
  | [], _, _ => rfl
  | p :: rest, w, h => by
      unfold reapLoop
      rw [h p (List.mem_cons_self p rest)]
      simp only [Bool.false_eq_true, if_false]
      exact reapLoop_noop lid now2 rest w (fun q hq => h q (List.mem_cons_of_mem p hq))

theorem reapInactive_noop {w : World} {lid : Nat} {n1 n2 : ℚ} (h : n2 - n1 ≤ 5000)
    (hLU : AllLU n1 (rosterOf w lid)) : reapInactive w lid n2 = (w, []) := by
  unfold reapInactive
  cases hL : findLobby w lid with
  | none => rfl
  | some L =>
      refine reapLoop_noop lid n2 L.players w (fun p hp => ?_)
      have hst : p.lastUpdate = some n1 := by
        apply hLU
        rw [rosterOf_eq_of_findLobby hL]
        exact hp
      unfold isTimedOut
      rw [hst]
      simp only [decide_eq_false_iff_not]
      linarith

theorem mem_rosterOf_modifyRoster_filter {w : World} {lid : Nat} {pred : Player → Bool}
    {q : Player}
    (hq : q ∈ rosterOf (modifyRoster w lid (fun ps => ps.filter pred)) lid) :
    q ∈ rosterOf w lid := by
  unfold modifyRoster modifyLobbyIf at hq
  cases hL : findLobby w lid with
  | none =>
      rw [hL] at hq
      exact hq
  | some L =>
      rw [hL] at hq
      rw [rosterOf_eq_of_findLobby (findLobby_setLobby_self _ (by rw [hL]; rfl))] at hq
      rw [rosterOf_eq_of_findLobby hL]
      exact List.mem_of_mem_filter hq

theorem mem_rosterOf_modifyRoster_filter_any {w : World} {lid lid2 : Nat}
    {pred : Player → Bool} {q : Player}
    (hq : q ∈ rosterOf (modifyRoster w lid (fun ps => ps.filter pred)) lid2) :
    q ∈ rosterOf w lid2 := by
  by_cases h2 : lid2 = lid
  · subst h2
    exact mem_rosterOf_modifyRoster_filter hq
  · rw [rosterOf_modifyRoster_ne _ h2] at hq
    exact hq

theorem reapLoop_roster (lid : Nat) (now2 : ℚ) :
    ∀ (ps : List Player) (w : World),
      (∀ q ∈ rosterOf (reapLoop lid now2 ps w).1 lid, q ∈ rosterOf w lid) ∧
        (∀ lid2, lid2 ≠ lid →
          rosterOf (reapLoop lid now2 ps w).1 lid2 = rosterOf w lid2)
  | [], _ => ⟨fun q hq => hq, fun _ _ => rfl⟩
  | p :: rest, w => by
      unfold reapLoop
      by_cases ht : isTimedOut now2 p
      · rw [if_pos ht]
        dsimp only
        constructor
        · intro q hq
          have := (reapLoop_roster lid now2 rest _).1 q hq
          exact mem_rosterOf_modifyRoster_filter this
        · intro lid2 h2
          rw [(reapLoop_roster lid now2 rest _).2 lid2 h2,
              rosterOf_modifyRoster_ne _ h2]
      · rw [if_neg ht]
        exact reapLoop_roster lid now2 rest w

theorem reapInactive_roster {w : World} {lid : Nat} {now2 : ℚ} :
    (∀ q ∈ rosterOf (reapInactive w lid now2).1 lid, q ∈ rosterOf w lid) ∧
      (∀ lid2, lid2 ≠ lid →
        rosterOf (reapInactive w lid now2).1 lid2 = rosterOf w lid2) := by
  unfold reapInactive
  cases hL : findLobby w lid with
  | none => exact ⟨fun q hq => hq, fun _ _ => rfl⟩
  | some L => exact reapLoop_roster lid now2 L.players w

theorem reapLoop_events (lid : Nat) (now2 : ℚ) :
    ∀ (ps : List Player) (w : World),
      ∀ ev ∈ (reapLoop lid now2 ps w).2, ∃ pid, ev.payload = Msg.playerDisconnected pid
  | [], _ => by intro ev hev; cases hev
  | p :: rest, w => by
      unfold reapLoop
      by_cases ht : isTimedOut now2 p
      · rw [if_pos ht]
        dsimp only
        intro ev hev
        rcases List.mem_append.mp hev with h1 | h2
        · exact ⟨p.id, broadcastToLobby_payload h1⟩
        · exact reapLoop_events lid now2 rest _ ev h2
      · rw [if_neg ht]
        exact reapLoop_events lid now2 rest w

/- The whole-state size invariant: every player of every lobby has at
   least the starting size. -/
def SizeInv (w : World) : Prop :=
  ∀ lid, ∀ p ∈ rosterOf w lid, CONFIG.playerStartSize ≤ p.size

theorem sizeLB_of_sizeOK {a b : List Player} {s : ℚ} (h : SizeOK a b)
    (ha : ∀ p ∈ a, s ≤ p.size) : ∀ q ∈ b, s ≤ q.size := by
  intro q hq
  obtain ⟨p, hp, _, hs⟩ := h q hq
  exact (ha p hp).trans hs

theorem sizeOK_refl (ps : List Player) : SizeOK ps ps :=
  fun q hq => ⟨q, hq, rfl, le_refl _⟩

theorem sizeOK_of_subset {a b : List Player} (h : ∀ q ∈ b, q ∈ a) : SizeOK a b :=
  fun q hq => ⟨q, h q hq, rfl, le_refl _⟩

theorem checkFoodCollisions_frame (env : JsEnv) (w : World) (lid : Nat) {lid2 : Nat}
    (h2 : lid2 ≠ lid) :
    rosterOf (checkFoodCollisions env w lid).1 lid2 = rosterOf w lid2 := by
  unfold checkFoodCollisions
  cases hL : findLobby w lid with
  | none => rfl
  | some L =>
      dsimp only
      show rosterOf { setLobby w lid _ with rngK := _ } lid2 = rosterOf w lid2
      rw [rosterOf_rngK]
      exact rosterOf_setLobby_ne h2

/- The combined shape of one simulation tick: sizes never shrink and stay
   above the starting size, other lobbies are untouched, the cleanup pass
   removes nobody under normal timing, and no player_disconnected payload
   is ever produced. -/
theorem updateGameState_analysis (env : JsEnv) (w : World) (lid : Nat)
    (dt n1 n2 : ℚ) (hsz : ∀ p ∈ rosterOf w lid, CONFIG.playerStartSize ≤ p.size)
    (hn : n2 - n1 ≤ 5000) :
    SizeOK (rosterOf w lid) (rosterOf (updateGameState env w lid dt n1 n2).1 lid) ∧
      (∀ lid2, lid2 ≠ lid →
        rosterOf (updateGameState env w lid dt n1 n2).1 lid2 = rosterOf w lid2) ∧
      (∀ ev ∈ (updateGameState env w lid dt n1 n2).2.1, NotDisc ev) := by
  unfold updateGameState
  split
  · exact ⟨sizeOK_refl _, fun _ _ => rfl, fun ev hev => by cases hev⟩
  · rename_i L hL
    split
    · exact ⟨sizeOK_refl _, fun _ _ => rfl, fun ev hev => by cases hev⟩
    · split
      · refine ⟨?_, ?_, fun ev hev => endGame_events hev⟩
        · rw [rosterOf_endGame]
          exact sizeOK_refl _
        · intro lid2 _
          rw [rosterOf_endGame]
      · dsimp only
        have hroster0 : rosterOf w lid = L.players := rosterOf_eq_of_findLobby hL
        have hw1 : findLobby (setLobby w lid
            { L with players := L.players.map (movePlayer env dt n1) }) lid
              = some { L with players := L.players.map (movePlayer env dt n1) } :=
          findLobby_setLobby_self _ (by rw [hL]; rfl)
        have hok1 : SizeOK (rosterOf w lid) (L.players.map (movePlayer env dt n1)) := by
          rw [hroster0]
          exact moved_sizeOK env dt n1 L.players
        have hlu1 : AllLU n1 (L.players.map (movePlayer env dt n1)) :=
          moved_allLU env dt n1 L.players
        have hsz1 : ∀ p ∈ L.players.map (movePlayer env dt n1),
            CONFIG.playerStartSize ≤ p.size := by
          apply sizeLB_of_sizeOK (moved_sizeOK env dt n1 L.players)
          rw [← hroster0]
          exact hsz
        -- food phase
        have hok2 := @checkFoodCollisions_stepOK env _ lid _ hw1
        have hr2 := @checkFoodCollisions_roster env _ lid _ hw1
        have hlu2 := allLU_of_stepOK hok2 hlu1
        have hsz2 := sizeLB_of_sizeOK (sizeOK_of_stepOK hok2) hsz1
        rw [rosterOf_eq_of_findLobby hr2] at hlu2 hsz2
        -- player collision phase
        have hok3 := (@checkPlayerCollisions_stepOK env _ lid _ hr2 hsz2).1
        have hfr3 := (@checkPlayerCollisions_stepOK env _ lid _ hr2 hsz2).2
        have hlu3 := allLU_of_stepOK hok3 hlu2
        -- cleanup pass removes nobody
        have hr4 : reapInactive (checkPlayerCollisions env (checkFoodCollisions env
            (setLobby w lid { L with players := L.players.map (movePlayer env dt n1) })
              lid).1 lid).1 lid n2
            = ((checkPlayerCollisions env (checkFoodCollisions env
            (setLobby w lid { L with players := L.players.map (movePlayer env dt n1) })
              lid).1 lid).1, []) := reapInactive_noop hn hlu3
        rw [hr4]
        dsimp only
        have hokAll : SizeOK (rosterOf w lid)
            (rosterOf (checkPlayerCollisions env (checkFoodCollisions env
            (setLobby w lid { L with players := L.players.map (movePlayer env dt n1) })
              lid).1 lid).1 lid) := by
          have hmid := sizeOK_trans hok1 (sizeOK_of_stepOK hok2)
          rw [rosterOf_eq_of_findLobby hr2] at hmid
          exact sizeOK_trans hmid (sizeOK_of_stepOK hok3)
        split
        · refine ⟨hokAll, ?_, ?_⟩
          · intro lid2 h2
            rw [hfr3 lid2 h2, checkFoodCollisions_frame env _ lid h2,
                rosterOf_setLobby_ne h2]
          · intro ev hev
            simp only [List.append_nil] at hev
            rcases List.mem_append.mp hev with h1 | h1
            · exact checkFoodCollisions_events env _ lid ev h1
            · exact checkPlayerCollisions_events env _ lid ev h1
        · rename_i L4 hL4
          split
          · refine ⟨?_, ?_, ?_⟩
            · rw [rosterOf_endGame]
              exact hokAll
            · intro lid2 h2
              rw [rosterOf_endGame, hfr3 lid2 h2,
                  checkFoodCollisions_frame env _ lid h2, rosterOf_setLobby_ne h2]
            · intro ev hev
              simp only [List.append_nil] at hev
              rcases List.mem_append.mp hev with h1 | h1
              · rcases List.mem_append.mp h1 with h3 | h3
                · exact checkFoodCollisions_events env _ lid ev h3
                · exact checkPlayerCollisions_events env _ lid ev h3
              · exact endGame_events h1
          · refine ⟨hokAll, ?_, ?_⟩
            · intro lid2 h2
              rw [hfr3 lid2 h2, checkFoodCollisions_frame env _ lid h2,
                  rosterOf_setLobby_ne h2]
            · intro ev hev
              simp only [List.append_nil] at hev
              rcases List.mem_append.mp hev with h1 | h1
              · exact checkFoodCollisions_events env _ lid ev h1
              · exact checkPlayerCollisions_events env _ lid ev h1

/- Tick size lemma without any timing assumption: the cleanup pass can
   only remove players, which keeps the size bound. -/
theorem updateGameState_sizeOK (env : JsEnv) (w : World) (lid : Nat)
    (dt n1 n2 : ℚ) (hsz : ∀ p ∈ rosterOf w lid, CONFIG.playerStartSize ≤ p.size) :
    SizeOK (rosterOf w lid) (rosterOf (updateGameState env w lid dt n1 n2).1 lid) ∧
      (∀ lid2, lid2 ≠ lid →
        rosterOf (updateGameState env w lid dt n1 n2).1 lid2 = rosterOf w lid2) := by
  unfold updateGameState
  split
  · exact ⟨sizeOK_refl _, fun _ _ => rfl⟩
  · rename_i L hL
    split
    · exact ⟨sizeOK_refl _, fun _ _ => rfl⟩
    · split
      · refine ⟨?_, ?_⟩
        · rw [rosterOf_endGame]
          exact sizeOK_refl _
        · intro lid2 _
          rw [rosterOf_endGame]
      · dsimp only
        have hroster0 : rosterOf w lid = L.players := rosterOf_eq_of_findLobby hL
        have hw1 : findLobby (setLobby w lid
            { L with players := L.players.map (movePlayer env dt n1) }) lid
              = some { L with players := L.players.map (movePlayer env dt n1) } :=
          findLobby_setLobby_self _ (by rw [hL]; rfl)
        have hok1 : SizeOK (rosterOf w lid) (L.players.map (movePlayer env dt n1)) := by
          rw [hroster0]
          exact moved_sizeOK env dt n1 L.players
        have hsz1 : ∀ p ∈ L.players.map (movePlayer env dt n1),
            CONFIG.playerStartSize ≤ p.size := by
          apply sizeLB_of_sizeOK (moved_sizeOK env dt n1 L.players)
          rw [← hroster0]
          exact hsz
        have hok2 := @checkFoodCollisions_stepOK env _ lid _ hw1
        have hr2 := @checkFoodCollisions_roster env _ lid _ hw1
        have hsz2 := sizeLB_of_sizeOK (sizeOK_of_stepOK hok2) hsz1
        rw [rosterOf_eq_of_findLobby hr2] at hsz2
        have hok3 := (@checkPlayerCollisions_stepOK env _ lid _ hr2 hsz2).1
        have hfr3 := (@checkPlayerCollisions_stepOK env _ lid _ hr2 hsz2).2
        have hokAll : SizeOK (rosterOf w lid)
            (rosterOf (checkPlayerCollisions env (checkFoodCollisions env
            (setLobby w lid { L with players := L.players.map (movePlayer env dt n1) })
              lid).1 lid).1 lid) := by
          have hmid := sizeOK_trans hok1 (sizeOK_of_stepOK hok2)
          rw [rosterOf_eq_of_findLobby hr2] at hmid
          exact sizeOK_trans hmid (sizeOK_of_stepOK hok3)
        have hok4 : SizeOK (rosterOf w lid)
            (rosterOf (reapInactive (checkPlayerCollisions env (checkFoodCollisions env
            (setLobby w lid { L with players := L.players.map (movePlayer env dt n1) })
              lid).1 lid).1 lid n2).1 lid) :=
          sizeOK_trans hokAll (sizeOK_of_subset reapInactive_roster.1)
        have hfr4 : ∀ lid2, lid2 ≠ lid →
            rosterOf (reapInactive (checkPlayerCollisions env (checkFoodCollisions env
            (setLobby w lid { L with players := L.players.map (movePlayer env dt n1) })
              lid).1 lid).1 lid n2).1 lid2 = rosterOf w lid2 := by
          intro lid2 h2
          rw [reapInactive_roster.2 lid2 h2, hfr3 lid2 h2,
              checkFoodCollisions_frame env _ lid h2, rosterOf_setLobby_ne h2]
        split
        · exact ⟨hok4, hfr4⟩
        · split
          · refine ⟨?_, ?_⟩
            · rw [rosterOf_endGame]
              exact hok4
            · intro lid2 h2
              rw [rosterOf_endGame]
              exact hfr4 lid2 h2
          · exact ⟨hok4, hfr4⟩

/- Per-operation size bounds. -/

theorem mem_mapIdx_size {ps : List Player} {f : Nat → Player → Player} {q : Player}
    (hq : q ∈ ps.mapIdx f) (hf : ∀ i p, (f i p).size = CONFIG.playerStartSize) :
    q.size = CONFIG.playerStartSize := by
  obtain ⟨i, hi⟩ := List.mem_iff_getElem?.mp hq
  rw [List.getElem?_mapIdx] at hi
  cases hp : ps[i]? with
  | none => rw [hp] at hi; cases hi
  | some p =>
      rw [hp] at hi
      simp only [Option.map_some', Option.some_inj] at hi
      rw [← hi]
      exact hf i p

theorem mem_rosterSet {ps : List Player} {player q : Player}
    (hq : q ∈ rosterSet ps player) : q = player ∨ q ∈ ps := by
  unfold rosterSet at hq
  split at hq
  · rcases mem_map_replace hq with h | h
    · exact Or.inl h
    · exact Or.inr h.1
  · rcases List.mem_append.mp hq with h | h
    · exact Or.inr h
    · exact Or.inl (List.mem_singleton.mp h)

theorem rosterOf_append_entry {w : World} {code lid2 : Nat} {L0 : Lobby} :
    rosterOf { w with lobbies := w.lobbies ++ [(code, L0)] } lid2 = rosterOf w lid2 ∨
      rosterOf { w with lobbies := w.lobbies ++ [(code, L0)] } lid2 = L0.players ∨
      rosterOf { w with lobbies := w.lobbies ++ [(code, L0)] } lid2 = [] := by
  unfold rosterOf findLobby
  dsimp only
  rw [List.find?_append]
  cases hf : w.lobbies.find? (fun e => e.1 == lid2) with
  | some e => left; simp
  | none =>
      right
      by_cases h2 : code = lid2
      · left
        have hb : (code == lid2) = true := by simp [h2]
        show (match Option.map Prod.snd (List.find? (fun e => e.1 == lid2) [(code, L0)]) with
          | some L => L.players
          | none => []) = L0.players
        simp [List.find?, hb]
      · right
        have hb : (code == lid2) = false := by simp [h2]
        show (match Option.map Prod.snd (List.find? (fun e => e.1 == lid2) [(code, L0)]) with
          | some L => L.players
          | none => []) = []
        simp [List.find?, hb]

theorem createLobby_roster {w : World} {code : Nat} {lid2 : Nat} {q : Player}
    (hq : q ∈ rosterOf (createLobby w code) lid2) : q ∈ rosterOf w lid2 := by
  unfold createLobby at hq
  split at hq
  · -- key already present: same shape as setLobby w code defaultLobby
    have hq2 : q ∈ rosterOf (setLobby w code defaultLobby) lid2 := hq
    by_cases h2 : lid2 = code
    · subst h2
      rename_i hany
      have hsome : (findLobby w lid2).isSome := by
        unfold findLobby
        rw [Option.isSome_map']
        rw [List.find?_isSome]
        obtain ⟨e, he, hpe⟩ := List.any_eq_true.mp hany
        exact ⟨e, he, hpe⟩
      rw [rosterOf_eq_of_findLobby (findLobby_setLobby_self _ hsome)] at hq2
      cases hq2
    · rw [rosterOf_setLobby_ne h2] at hq2
      exact hq2
  · rcases @rosterOf_append_entry w code lid2 defaultLobby with h | h | h
    · rw [h] at hq
      exact hq
    · rw [h] at hq
      cases hq
    · rw [h] at hq
      cases hq

theorem disconnectAllLoop_lobbies :
    ∀ (ps : List Player) (w : World), (disconnectAllLoop ps w).1.lobbies = w.lobbies
  | [], _ => rfl
  | p :: rest, w => by
      unfold disconnectAllLoop
      cases findClient w p.clientId with
      | some c => exact disconnectAllLoop_lobbies rest _
      | none => exact disconnectAllLoop_lobbies rest w

theorem find?_filter_key (lid lid2 : Nat) :
    ∀ l : List (Nat × Lobby),
      (l.filter (fun e => e.1 != lid)).find? (fun e => e.1 == lid2)
        = if lid2 = lid then none else l.find? (fun e => e.1 == lid2)
  | [] => by simp
  | a :: t => by
      by_cases ha : a.1 = lid
      · rw [List.filter_cons_of_neg (by simpa using ha)]
        rw [find?_filter_key lid lid2 t]
        by_cases h2 : lid2 = lid
        · simp [h2]
        · rw [if_neg h2, if_neg h2,
              List.find?_cons_of_neg _ (by simp [ha]; exact Ne.symm h2)]
      · rw [List.filter_cons_of_pos (by simpa using ha)]
        by_cases hb : a.1 = lid2
        · have hne : lid2 ≠ lid := fun hc => ha (hb.trans hc)
          rw [if_neg hne, List.find?_cons_of_pos _ (by simpa using hb),
              List.find?_cons_of_pos _ (by simpa using hb)]
        · rw [List.find?_cons_of_neg _ (by simpa using hb)]
          rw [find?_filter_key lid lid2 t]
          by_cases h2 : lid2 = lid
          · simp [h2]
          · rw [if_neg h2, if_neg h2, List.find?_cons_of_neg _ (by simpa using hb)]

theorem mem_roster_modifyRoster_map {w : World} {lid : Nat} {g : Player → Player}
    {q : Player} (hq : q ∈ rosterOf (modifyRoster w lid (fun ps => ps.map g)) lid) :
    ∃ p ∈ rosterOf w lid, q = g p := by
  unfold modifyRoster modifyLobbyIf at hq
  cases hL : findLobby w lid with
  | none =>
      rw [hL] at hq
      unfold rosterOf at hq
      rw [hL] at hq
      cases hq
  | some L =>
      rw [hL] at hq
      rw [rosterOf_eq_of_findLobby (findLobby_setLobby_self _ (by rw [hL]; rfl))] at hq
      obtain ⟨p, hp, hpq⟩ := List.mem_map.mp hq
      refine ⟨p, ?_, hpq.symm⟩
      rw [rosterOf_eq_of_findLobby hL]
      exact hp

theorem startCountdown_roster (w : World) (lid : Nat) :
    ∀ lid2, rosterOf (startCountdown w lid).1 lid2 = rosterOf w lid2 := by
  unfold startCountdown
  split
  · intro lid2; rfl
  · rename_i L hL
    dsimp only
    intro lid2
    by_cases h2 : lid2 = lid
    · subst h2
      rw [rosterOf_eq_of_findLobby (findLobby_setLobby_self _
            (isSome_findLobby_setLobby _ (by rw [hL]; rfl))),
          rosterOf_eq_of_findLobby hL]
    · rw [rosterOf_setLobby_ne h2, rosterOf_setLobby_ne h2]

theorem checkGameStart_roster (w : World) (lid : Nat) :
    ∀ lid2, rosterOf (checkGameStart w lid).1 lid2 = rosterOf w lid2 := by
  unfold checkGameStart
  split
  · intro lid2; rfl
  · split
    · intro lid2; rfl
    · split
      · exact startCountdown_roster w lid
      · intro lid2; rfl

theorem handleJoinLobby_sizeInv (w : World) (cid lid : Nat) (nm : String)
    (h : SizeInv w) : SizeInv (handleJoinLobby w cid lid nm).1 := by
  unfold handleJoinLobby
  split
  · exact h
  · rename_i L hL
    split
    · exact h
    · split
      · exact h
      · dsimp only
        intro lid2 q hq
        have hq3 : q ∈ rosterOf (setLobby w lid _) lid2 := hq
        by_cases h2 : lid2 = lid
        · subst h2
          rw [rosterOf_eq_of_findLobby (findLobby_setLobby_self _ (by rw [hL]; rfl))] at hq3
          rcases mem_rosterSet hq3 with rfl | hmem
          · exact le_refl _
          · refine h lid2 q ?_
            rw [rosterOf_eq_of_findLobby hL]
            exact hmem
        · rw [rosterOf_setLobby_ne h2] at hq3
          exact h lid2 q hq3

theorem handleToggleReady_sizeInv (w : World) (cid lid : Nat)
    (h : SizeInv w) : SizeInv (handleToggleReady w cid lid).1 := by
  unfold handleToggleReady
  split
  · exact h
  · split
    · exact h
    · split
      · exact h
      · split
        · exact h
        · dsimp only
          intro lid2 q hq
          rw [checkGameStart_roster] at hq
          by_cases h2 : lid2 = lid
          · subst h2
            obtain ⟨p, hp, hpq⟩ := mem_roster_modifyRoster_map hq
            have hb := h lid2 p hp
            rw [hpq]
            split
            · exact hb
            · exact hb
          · rw [rosterOf_modifyRoster_ne _ h2] at hq
            exact h lid2 q hq

theorem handlePlayerInput_sizeInv (env : JsEnv) (w : World) (cid lid : Nat) (v : Vec2)
    (h : SizeInv w) : SizeInv (handlePlayerInput env w cid lid v) := by
  unfold handlePlayerInput
  split
  · exact h
  · split
    · exact h
    · split
      · exact h
      · split
        · exact h
        · split
          · exact h
          · dsimp only
            intro lid2 q hq
            by_cases h2 : lid2 = lid
            · subst h2
              obtain ⟨p, hp, hpq⟩ := mem_roster_modifyRoster_map hq
              have hb := h lid2 p hp
              rw [hpq]
              split
              · exact hb
              · exact hb
            · rw [rosterOf_modifyRoster_ne _ h2] at hq
              exact h lid2 q hq

theorem handleRequestLobby_sizeInv (w : World) (cid : Nat)
    (h : SizeInv w) : SizeInv (handleRequestLobby w cid).1 := by
  unfold handleRequestLobby
  split
  · exact h
  · split
    · exact h
    · rename_i lid hlid
      split
      · exact h
      · rename_i L hL
        dsimp only
        intro lid2 q hq
        by_cases h2 : lid2 = lid
        · subst h2
          rw [rosterOf_eq_of_findLobby (findLobby_setLobby_self _ (by rw [hL]; rfl))] at hq
          obtain ⟨p, _, hpq⟩ := List.mem_map.mp hq
          subst hpq
          exact le_refl _
        · rw [rosterOf_setLobby_ne h2] at hq
          exact h lid2 q hq

theorem handleClientDisconnect_roster {w : World} {cid lid2 : Nat} {q : Player}
    (hq : q ∈ rosterOf (handleClientDisconnect w cid).1 lid2) : q ∈ rosterOf w lid2 := by
  unfold handleClientDisconnect at hq
  split at hq
  · exact hq
  · dsimp only at hq
    revert hq
    split
    · exact fun hq => hq
    · split
      · split
        · split
          · intro hq
            have hq2 : q ∈ rosterOf (endGame (modifyRoster w _
                (fun ps => ps.filter (fun r => r.id != _))) _ _).1 lid2 := hq
            rw [rosterOf_endGame] at hq2
            exact mem_rosterOf_modifyRoster_filter_any hq2
          · intro hq
            have hq2 : q ∈ rosterOf (modifyRoster w _
                (fun ps => ps.filter (fun r => r.id != _))) lid2 := hq
            exact mem_rosterOf_modifyRoster_filter_any hq2
        · intro hq
          have hq2 : q ∈ rosterOf (modifyRoster w _
              (fun ps => ps.filter (fun r => r.id != _))) lid2 := hq
          exact mem_rosterOf_modifyRoster_filter_any hq2
      · exact fun hq => hq

theorem handleClientDisconnect_sizeInv (w : World) (cid : Nat)
    (h : SizeInv w) : SizeInv (handleClientDisconnect w cid).1 :=
  fun lid2 q hq => h lid2 q (handleClientDisconnect_roster hq)

theorem initializeGamePositions_sizeInv (env : JsEnv) (w : World) (lid : Nat)
    (h : SizeInv w) : SizeInv (initializeGamePositions env w lid) := by
  unfold initializeGamePositions
  split
  · exact h
  · rename_i L hL
    intro lid2 q hq
    by_cases h2 : lid2 = lid
    · subst h2
      rw [rosterOf_eq_of_findLobby (findLobby_setLobby_self _ (by rw [hL]; rfl))] at hq
      have := mem_mapIdx_size hq (fun i p => rfl)
      rw [this]
    · rw [rosterOf_setLobby_ne h2] at hq
      exact h lid2 q hq

theorem generateFood_roster (env : JsEnv) (w : World) (lid : Nat) :
    ∀ lid2, rosterOf (generateFood env w lid) lid2 = rosterOf w lid2 := by
  unfold generateFood
  split
  · intro lid2; rfl
  · rename_i L hL
    intro lid2
    show rosterOf { setLobby w lid _ with rngK := _ } lid2 = rosterOf w lid2
    rw [rosterOf_rngK]
    by_cases h2 : lid2 = lid
    · subst h2
      rw [rosterOf_eq_of_findLobby (findLobby_setLobby_self _ (by rw [hL]; rfl)),
          rosterOf_eq_of_findLobby hL]
    · exact rosterOf_setLobby_ne h2

theorem startGameTick_roster (w : World) (lid : Nat) :
    ∀ lid2, rosterOf (startGameTick w lid) lid2 = rosterOf w lid2 := by
  unfold startGameTick modifyLobbyIf
  split
  · rename_i L hL
    intro lid2
    by_cases h2 : lid2 = lid
    · subst h2
      rw [rosterOf_eq_of_findLobby (findLobby_setLobby_self _ (by rw [hL]; rfl)),
          rosterOf_eq_of_findLobby hL]
    · exact rosterOf_setLobby_ne h2
  · intro lid2; rfl

theorem startGame_sizeInv (env : JsEnv) (w : World) (lid : Nat)
    (h : SizeInv w) : SizeInv (startGame env w lid).1 := by
  unfold startGame
  split
  · exact h
  · rename_i L hL
    dsimp only
    intro lid2 q hq
    rw [startGameTick_roster, generateFood_roster] at hq
    refine initializeGamePositions_sizeInv env _ lid ?_ lid2 q hq
    intro lid3 p hp
    by_cases h3 : lid3 = lid
    · subst h3
      rw [rosterOf_eq_of_findLobby (findLobby_setLobby_self _ (by rw [hL]; rfl))] at hp
      refine h lid3 p ?_
      rw [rosterOf_eq_of_findLobby hL]
      exact hp
    · rw [rosterOf_setLobby_ne h3] at hp
      exact h lid3 p hp

theorem countdownTick_sizeInv (env : JsEnv) (w : World) (lid : Nat)
    (h : SizeInv w) : SizeInv (countdownTick env w lid).1 := by
  unfold countdownTick
  split
  · exact h
  · rename_i L hL
    dsimp only
    have hset : SizeInv (setLobby w lid { L with countdown := L.countdown - 1 }) := by
      intro lid2 q hq
      by_cases h2 : lid2 = lid
      · subst h2
        rw [rosterOf_eq_of_findLobby (findLobby_setLobby_self _ (by rw [hL]; rfl))] at hq
        refine h lid2 q ?_
        rw [rosterOf_eq_of_findLobby hL]
        exact hq
      · rw [rosterOf_setLobby_ne h2] at hq
        exact h lid2 q hq
    split
    · exact hset
    · apply startGame_sizeInv
      intro lid2 q hq
      by_cases h2 : lid2 = lid
      · subst h2
        rw [rosterOf_eq_of_findLobby (findLobby_setLobby_self _
              (isSome_findLobby_setLobby _ (by rw [hL]; rfl)))] at hq
        refine h lid2 q ?_
        rw [rosterOf_eq_of_findLobby hL]
        exact hq
      · rw [rosterOf_setLobby_ne h2, rosterOf_setLobby_ne h2] at hq
        exact h lid2 q hq

theorem runGameOverTimeout_sizeInv (w : World) (lid : Nat)
    (h : SizeInv w) : SizeInv (runGameOverTimeout w lid).1 := by
  have hfilter : ∀ (w2 : World), SizeInv w2 →
      SizeInv { w2 with lobbies := w2.lobbies.filter (fun e => e.1 != lid) } := by
    intro w2 h2 lid2 q hq
    refine h2 lid2 q ?_
    unfold rosterOf findLobby at hq ⊢
    dsimp only at hq
    rw [find?_filter_key lid lid2 w2.lobbies] at hq
    by_cases h3 : lid2 = lid
    · rw [if_pos h3] at hq
      cases hq
    · rw [if_neg h3] at hq
      exact hq
  unfold runGameOverTimeout
  split
  · rename_i L hL
    dsimp only
    apply hfilter
    intro lid2 q hq
    have hlob := disconnectAllLoop_lobbies L.players w
    have : rosterOf (disconnectAllLoop L.players w).1 lid2 = rosterOf w lid2 := by
      unfold rosterOf findLobby
      rw [hlob]
    rw [this] at hq
    exact h lid2 q hq
  · exact hfilter w h

theorem updateGameState_sizeInv (env : JsEnv) (w : World) (lid : Nat) (dt n1 n2 : ℚ)
    (h : SizeInv w) : SizeInv (updateGameState env w lid dt n1 n2).1 := by
  obtain ⟨hok, hfr⟩ := updateGameState_sizeOK env w lid dt n1 n2 (h lid)
  intro lid2 q hq
  by_cases h2 : lid2 = lid
  · subst h2
    exact sizeLB_of_sizeOK hok (h lid2) q hq
  · rw [hfr lid2 h2] at hq
    exact h lid2 q hq

theorem applyAction_sizeInv (env : JsEnv) (a : Action) (w : World) (h : SizeInv w) :
    SizeInv (applyAction env a w) := by
  cases a with
  | connect cid => exact fun lid p hp => h lid p hp
  | createLobbyA code => exact fun lid p hp => h lid p (createLobby_roster hp)
  | join cid lid nm => exact handleJoinLobby_sizeInv w cid lid nm h
  | toggleReady cid lid => exact handleToggleReady_sizeInv w cid lid h
  | playerInput cid lid v => exact handlePlayerInput_sizeInv env w cid lid v h
  | requestLobby cid => exact handleRequestLobby_sizeInv w cid h
  | disconnect cid => exact handleClientDisconnect_sizeInv w cid h
  | countdownTickA lid => exact countdownTick_sizeInv env w lid h
  | gameTick lid dt n1 n2 => exact updateGameState_sizeInv env w lid dt n1 n2 h
  | gameOverTimeoutA lid => exact runGameOverTimeout_sizeInv w lid h

set_option maxRecDepth 1024

/- Concrete scenarios used to settle the claims. -/

/- A playing two player lobby in which the big player is touching the
   small one, so that the next tick absorbs: lobby 7, players 10 (size 2,
   at the origin) and 11 (size 1, at distance 1). -/
def clientC1 : Client := ⟨1, some 10, some 7, true⟩

def clientC2 : Client := ⟨2, some 11, some 7, true⟩

def playerA : Player :=
  ⟨10, 1, "A", 0x44aa88, true, 0, 0, 2, ⟨0, 0⟩, none⟩

def playerB : Player :=
  ⟨11, 2, "B", 0xaa4444, true, 1, 0, 1, ⟨0, 0⟩, none⟩

def lobby7 : Lobby :=
  { players := [playerA, playerB], gameState := GameState.playing,
    foodItems := [], countdown := 0, countdownInterval := false,
    gameTickInterval := true }

def w0 : World := ⟨[clientC1, clientC2], [(7, lobby7)], 100, 0⟩

/-- Claim C1. The spec says a lobby whose roster drops to exactly one player
while playing emits game_over with that winner exactly once and tears the
lobby down after the delay. Refuted on w0: the absorption drops the roster
of lobby 7 to the single player 10, and the tick then broadcasts the
game_over payload for winner 10 with size 5/2 TWICE (once from the end
check inside absorbPlayer, once from the end check at the bottom of
updateGameState, because endGame never moves gameState away from playing)
and schedules the 3 second teardown twice as well. The teardown itself
does remove the lobby. -/
theorem game_over_broadcast_twice :
    ((updateGameState exactEnv w0 7 (1/60) 0 0).2.1.filter
        (fun e => match e.payload with | Msg.gameOver _ _ => true | _ => false)).length = 2 ∧
    ((updateGameState exactEnv w0 7 (1/60) 0 0).2.1.map Event.payload
        = [Msg.playerEaten 11 (some 10), Msg.youWereEliminated,
           Msg.gameOver (some 10) (5/2), Msg.gameOver (some 10) (5/2)]) ∧
    ((rosterOf (updateGameState exactEnv w0 7 (1/60) 0 0).1 7).map Player.id = [10]) ∧
    ((updateGameState exactEnv w0 7 (1/60) 0 0).2.2.map PendingTimeout.lobbyId
        = [7, 7]) ∧
    (findLobby (runGameOverTimeout (updateGameState exactEnv w0 7 (1/60) 0 0).1 7).1 7
        = none) := by
  refine ⟨?_, ?_, ?_, ?_, ?_⟩ <;> with_unfolding_all decide

/- A playing lobby whose two players are both five simulation seconds past
   the inactivity timeout (lastUpdate 0, tick at time 1000000), far apart
   and with zero input. -/
def playerC : Player :=
  ⟨20, 1, "C", 0x44aa88, true, -10, 0, 1, ⟨0, 0⟩, some 0⟩

def playerD : Player :=
  ⟨21, 2, "D", 0xaa4444, true, 10, 0, 1, ⟨0, 0⟩, some 0⟩

def lobby8 : Lobby :=
  { players := [playerC, playerD], gameState := GameState.playing,
    foodItems := [], countdown := 0, countdownInterval := false,
    gameTickInterval := true }

def w2 : World :=
  ⟨[⟨1, some 20, some 8, true⟩, ⟨2, some 21, some 8, true⟩], [(8, lobby8)], 100, 0⟩

/-- Claim C2. The spec says a tick removes every player whose last activity
timestamp is older than the 5 second timeout and broadcasts
player_disconnected for it. Refuted on w2: both players enter the tick
with lastUpdate 0 while the tick runs at time 1000000 (a million
milliseconds of inactivity, far beyond the timeout), yet the tick keeps
both in the roster and emits no player_disconnected payload at all: the
movement loop unconditionally rewrites lastUpdate to the current time
before the cleanup pass reads it, so the cleanup can never fire. -/
theorem stale_player_never_reaped :
    ((rosterOf w2 8).all (fun p => p.lastUpdate == some 0) = true) ∧
    ((rosterOf (updateGameState exactEnv w2 8 (1/60) 1000000 1000000).1 8).map Player.id
        = [20, 21]) ∧
    ((updateGameState exactEnv w2 8 (1/60) 1000000 1000000).2.1.all
        (fun e => match e.payload with
          | Msg.playerDisconnected _ => false
          | _ => true) = true) := by
  with_unfolding_all decide

/- A world with one connected client and one freshly created lobby 100. -/
def wa : World := ⟨[⟨1, none, none, true⟩], [(100, defaultLobby)], 0, 0⟩

/-- Claim C9. A join_lobby request fails with a distinct error message sent
to the requester in each of the three cases, lobby code unknown, lobby not
in the lobby state, roster at the cap, and the world is returned unchanged
in every failure case. -/
theorem join_error_cases (w : World) (cid lid : Nat) (nm : String) :
    (findLobby w lid = none →
       handleJoinLobby w cid lid nm
         = (w, sendToClient w cid (Msg.errorMsg "Lobby not found"))) ∧
    (∀ L, findLobby w lid = some L → L.gameState ≠ GameState.lobby →
       handleJoinLobby w cid lid nm
         = (w, sendToClient w cid (Msg.errorMsg "Game already in progress"))) ∧
    (∀ L, findLobby w lid = some L → L.gameState = GameState.lobby →
       CONFIG.maxPlayers ≤ L.players.length →
       handleJoinLobby w cid lid nm
         = (w, sendToClient w cid (Msg.errorMsg "Lobby is full"))) ∧
    ("Lobby not found" ≠ "Game already in progress" ∧
     "Lobby not found" ≠ "Lobby is full" ∧
     "Game already in progress" ≠ "Lobby is full") := by
  refine ⟨?_, ?_, ?_, by decide, by decide, by decide⟩
  · intro h
    unfold handleJoinLobby
    rw [h]
  · intro L hL hst
    unfold handleJoinLobby
    rw [hL]
    dsimp only
    rw [if_pos hst]
  · intro L hL hst hcap
    unfold handleJoinLobby
    rw [hL]
    dsimp only
    rw [if_neg (by simp [hst]), if_pos hcap]

/-- Witness for C9 at a concrete input: joining the unknown lobby 999 of
the world wa reports the not-found error and leaves the world unchanged. -/
theorem join_error_cases_witness :
    handleJoinLobby wa 1 999 "x" = (wa, sendToClient wa 1 (Msg.errorMsg "Lobby not found")) :=
  (join_error_cases wa 1 999 "x").1 rfl

/- Reaching a duplicated color: clients 1, 2, 3 join lobby 100 (taking
   palette entries 0, 1, 2), client 1 disconnects, client 4 joins: the
   color index is the roster size 2, handing out palette entry 2 again. -/
def w6base : World :=
  ⟨[⟨1, none, none, true⟩, ⟨2, none, none, true⟩, ⟨3, none, none, true⟩,
    ⟨4, none, none, true⟩], [(100, defaultLobby)], 0, 0⟩

def w6 : World :=
  applyAction exactEnv (Action.join 4 100 "d")
    (applyAction exactEnv (Action.disconnect 1)
      (applyAction exactEnv (Action.join 3 100 "c")
        (applyAction exactEnv (Action.join 2 100 "b")
          (applyAction exactEnv (Action.join 1 100 "a") w6base))))

/-- Counterexample for C6: after the join, leave, rejoin sequence of w6 the
roster of lobby 100 holds three players, two of which share a palette
color, while the roster size is well below the palette length. -/
theorem duplicate_color_after_rejoin :
    ((rosterOf w6 100).length ≤ 5) ∧
    ¬ ((rosterOf w6 100).map Player.color).Nodup := by
  with_unfolding_all decide

theorem rosterOf_nextId (w : World) (k : Nat) (lid : Nat) :
    rosterOf { w with nextId := k } lid = rosterOf w lid := rfl

/- The player literal of the success branch of handleJoinLobby, lines 241
   to 251 of the source, named so the roster after a join can be written
   down. -/
def joinedPlayer (w : World) (cid : Nat) (nm : String) (L : Lobby) : Player :=
  { id := w.nextId, clientId := cid, name := nm,
    color := playerColors.getD (L.players.length % playerColors.length) 0,
    ready := false, x := 0, y := 0, size := CONFIG.playerStartSize,
    input := ⟨0, 0⟩, lastUpdate := none }

theorem playerColors_take_succ {n : Nat} (h : n < CONFIG.maxPlayers) :
    playerColors.take n ++ [playerColors.getD (n % playerColors.length) 0]
      = playerColors.take (n + 1) := by
  have h5 : n < 5 := h
  interval_cases n <;> rfl

/-- Claim C6 (amended). A successful join, into a found lobby in the lobby
state below the player cap, with a fresh id, grows the roster by exactly
one; and when the colors already held are the palette Take of the roster
size, the same stays true after the join, so all colors in the lobby are
pairwise distinct. Without the palette pattern hypothesis the
distinctness is false, as the rejoin counterexample shows: the color
index is the current roster size, which repeats after a leave. -/
theorem join_increments_and_colors (w : World) (cid lid : Nat) (nm : String) (L : Lobby)
    (hL : findLobby w lid = some L)
    (hstate : L.gameState = GameState.lobby)
    (hcap : L.players.length < CONFIG.maxPlayers)
    (hfresh : ∀ p ∈ L.players, p.id ≠ w.nextId)
    (hcolors : L.players.map Player.color = playerColors.take L.players.length) :
    (rosterOf (handleJoinLobby w cid lid nm).1 lid).length = L.players.length + 1 ∧
    (rosterOf (handleJoinLobby w cid lid nm).1 lid).map Player.color
      = playerColors.take (L.players.length + 1) ∧
    ((rosterOf (handleJoinLobby w cid lid nm).1 lid).map Player.color).Nodup := by
  have hkey : rosterOf (handleJoinLobby w cid lid nm).1 lid
      = L.players ++ [joinedPlayer w cid nm L] := by
    unfold handleJoinLobby
    rw [hL]
    dsimp only
    rw [if_neg (by simp [hstate]), if_neg (not_le.mpr hcap)]
    dsimp only
    rw [rosterOf_updateClient, rosterOf_nextId,
        rosterOf_eq_of_findLobby (findLobby_setLobby_self _ (by rw [hL]; rfl))]
    unfold rosterSet
    rw [if_neg (by
      simp only [List.any_eq_true, beq_iff_eq]
      rintro ⟨p, hp, hpe⟩
      exact hfresh p hp hpe)]
    rfl
  have hmap : (L.players ++ [joinedPlayer w cid nm L]).map Player.color
      = playerColors.take (L.players.length + 1) := by
    rw [List.map_append, hcolors, List.map_singleton]
    exact playerColors_take_succ hcap
  refine ⟨?_, ?_, ?_⟩
  · rw [hkey]
    simp
  · rw [hkey]
    exact hmap
  · rw [hkey, hmap]
    exact List.Nodup.sublist (List.take_sublist _ _) (by decide)

/-- Witness for C6 at a concrete input: the first join into the fresh
lobby 100 of wa takes the roster from zero to one player and hands out the
first palette color. -/
theorem join_increments_and_colors_witness :
    (rosterOf (handleJoinLobby wa 1 100 "a").1 100).length = defaultLobby.players.length + 1 ∧
    (rosterOf (handleJoinLobby wa 1 100 "a").1 100).map Player.color
      = playerColors.take (defaultLobby.players.length + 1) ∧
    ((rosterOf (handleJoinLobby wa 1 100 "a").1 100).map Player.color).Nodup :=
  join_increments_and_colors wa 1 100 "a" defaultLobby rfl rfl (by decide)
    (fun p hp => absurd hp (by simp [defaultLobby])) rfl

/- A playing lobby in which player 30 sits just inside the right boundary
   band (x 39/2 over the threshold 18) moving right with unit input: the
   bounce of lines 598 to 604 multiplies the stored input x by -4/5. -/
def q1 : Player := ⟨30, 5, "q1", 0x44aa88, true, 39/2, 0, 1, ⟨1, 0⟩, none⟩

def q2 : Player := ⟨31, 6, "q2", 0xaa4444, true, 29/3, 0, 1, ⟨0, 0⟩, none⟩

def lobby12 : Lobby :=
  { players := [q1, q2], gameState := GameState.playing, foodItems := [],
    countdown := 0, countdownInterval := false, gameTickInterval := true }

def w7 : World :=
  ⟨[⟨5, some 30, some 12, true⟩, ⟨6, some 31, some 12, true⟩], [(12, lobby12)], 100, 0⟩

/-- Counterexample for C7: after one tick of w7 the stored input of player
30 is the vector (-4/5, 0), which is neither the zero vector nor of unit
Euclidean length, because the boundary bounce scales the stored input by
the non-unit factor -4/5. -/
theorem input_not_unit_after_bounce :
    ((rosterOf (updateGameState exactEnv w7 12 (1/60) 0 0).1 12).map Player.input
        = [⟨-4/5, 0⟩, ⟨0, 0⟩]) ∧
    ¬ ((Vec2.mk (-4/5) 0 = ⟨0, 0⟩) ∨
       ((-4/5 : ℚ) * (-4/5) + 0 * 0 = 1)) := by
  with_unfolding_all decide

/-- Claim C7 (amended). The invariant fails for stored inputs in general
(see the bounce counterexample), but it does hold at the moment an input
message is processed: when the exact square root of the squared input
magnitude is available, handlePlayerInput stores either the zero vector or
a vector of unit Euclidean length for the addressed player. -/
theorem input_normalized_on_receipt (env : JsEnv) (w : World) (cid lid : Nat)
    (input : Vec2) (L : Lobby) (c : Client) (pid : Nat) (p0 : Player)
    (hL : findLobby w lid = some L)
    (hst : L.gameState = GameState.playing)
    (hc : findClient w cid = some c)
    (hpid : c.playerId = some pid)
    (hp0 : rosterGet L.players pid = some p0)
    (hsqrt : env.sqrt (input.x * input.x + input.y * input.y)
               * env.sqrt (input.x * input.x + input.y * input.y)
             = input.x * input.x + input.y * input.y) :
    ∀ q ∈ rosterOf (handlePlayerInput env w cid lid input) lid,
      q.id = pid →
      q.input = ⟨0, 0⟩ ∨ q.input.x * q.input.x + q.input.y * q.input.y = 1 := by
  intro q hq hqid
  unfold handlePlayerInput at hq
  rw [hL] at hq
  dsimp only at hq
  rw [if_neg (by simp [hst]), hc] at hq
  try dsimp only at hq
  rw [hpid] at hq
  try dsimp only at hq
  rw [hp0] at hq
  obtain ⟨p, hp, hpq⟩ := mem_roster_modifyRoster_map hq
  by_cases hid : p.id = pid
  · rw [hpq]
    simp only [hid, beq_self_eq_true, if_true]
    by_cases hlen : env.sqrt (input.x * input.x + input.y * input.y) > 0
    · rw [if_pos hlen]
      refine Or.inr ?_
      dsimp only
      have hpos : 0 < input.x * input.x + input.y * input.y := by
        rw [← hsqrt]
        exact mul_pos hlen hlen
      have hdiv : input.x / env.sqrt (input.x * input.x + input.y * input.y)
            * (input.x / env.sqrt (input.x * input.x + input.y * input.y))
          + input.y / env.sqrt (input.x * input.x + input.y * input.y)
            * (input.y / env.sqrt (input.x * input.x + input.y * input.y))
          = (input.x * input.x + input.y * input.y)
            / (env.sqrt (input.x * input.x + input.y * input.y)
                * env.sqrt (input.x * input.x + input.y * input.y)) := by
        ring
      rw [hdiv, hsqrt]
      exact div_self (ne_of_gt hpos)
    · rw [if_neg hlen]
      exact Or.inl rfl
  · exfalso
    rw [hpq] at hqid
    simp [hid] at hqid
/- A one player playing lobby for exercising handlePlayerInput. -/
def p70 : Player := ⟨70, 1, "p", 0x44aa88, true, 0, 0, 1, ⟨0, 0⟩, none⟩

def lobby50 : Lobby :=
  { players := [p70], gameState := GameState.playing, foodItems := [],
    countdown := 0, countdownInterval := false, gameTickInterval := true }

def wp : World := ⟨[⟨1, some 70, some 50, true⟩], [(50, lobby50)], 100, 0⟩

/-- Witness for C7 at a concrete input: the raw input (3, 4) of magnitude 5
is stored as (3/5, 4/5), a unit vector. -/
theorem input_normalized_on_receipt_witness :
    (Vec2.mk (3/5) (4/5) = ⟨0, 0⟩) ∨
    ((3/5 : ℚ) * (3/5) + (4/5) * (4/5) = 1) :=
  input_normalized_on_receipt exactEnv wp 1 50 ⟨3, 4⟩ lobby50
    ⟨1, some 70, some 50, true⟩ 70 p70 rfl rfl rfl rfl rfl
    (by with_unfolding_all decide)
    { p70 with input := ⟨3/5, 4/5⟩ }
    (by
      have h : rosterOf (handlePlayerInput exactEnv wp 1 50 ⟨3, 4⟩) 50
          = [{ p70 with input := ⟨3/5, 4/5⟩ }] := by with_unfolding_all rfl
      rw [h]
      exact List.mem_singleton.mpr rfl) rfl

theorem respawnFoods_length (env : JsEnv) : ∀ k n, (respawnFoods env k n).length = n
  | _, 0 => rfl
  | k, n + 1 => by
      unfold respawnFoods
      rw [List.length_cons, respawnFoods_length env (k + 2) n]

theorem respawnFoods_extents (env : JsEnv)
    (hrng : ∀ k, 0 ≤ env.rng k ∧ env.rng k < 1) :
    ∀ k n, ∀ nf ∈ respawnFoods env k n,
      -CONFIG.mapWidth ≤ nf.x ∧ nf.x ≤ CONFIG.mapWidth ∧
      -CONFIG.mapHeight ≤ nf.y ∧ nf.y ≤ CONFIG.mapHeight
  | _, 0, nf, hnf => absurd hnf (List.not_mem_nil _)
  | k, n + 1, nf, hnf => by
      rcases List.mem_cons.mp hnf with h | h
      · subst h
        obtain ⟨h0x, h1x⟩ := hrng k
        obtain ⟨h0y, h1y⟩ := hrng (k + 1)
        unfold CONFIG.mapWidth CONFIG.mapHeight
        dsimp only
        refine ⟨by linarith, by linarith, by linarith, by linarith⟩
      · exact respawnFoods_extents env hrng (k + 2) n nf h

/-- Claim C8. A player touching a food item (distance below size plus food
radius) grows by the fixed increment, the item is removed, and a food_eaten
event with the eaten position and the eater id goes out; when the remaining
count is below foodCount times respawnThreshold a batch of respawnAmount
items is appended, all within the map extents (given random draws in the
unit interval), each with its own event carrying the eaten position and
the new item. -/
theorem food_pickup_and_respawn (env : JsEnv) (recips : List Nat) (p : Player)
    (st : FoodSt) (i : Nat) (f : Vec2)
    (hf : st.foods[i]? = some f)
    (hdist : env.sqrt ((p.x - f.x) * (p.x - f.x) + (p.y - f.y) * (p.y - f.y))
               < p.size + CONFIG.foodSize)
    (hrng : ∀ k, 0 ≤ env.rng k ∧ env.rng k < 1) :
    (foodStep env recips p st i).1.size = p.size + CONFIG.growthRate ∧
    (foodStep env recips p st i).1.id = p.id ∧
    (if ((st.foods.eraseIdx i).length : ℚ)
          < (CONFIG.foodCount : ℚ) * CONFIG.respawnThreshold then
       (foodStep env recips p st i).2.foods
           = st.foods.eraseIdx i ++ respawnFoods env st.rngK CONFIG.respawnAmount ∧
       (foodStep env recips p st i).2.events
           = st.events ++ ⟨recips, Msg.foodEaten f.x f.y p.id none⟩
               :: (respawnFoods env st.rngK CONFIG.respawnAmount).map
                    (fun nf => ⟨recips, Msg.foodEaten f.x f.y p.id (some nf)⟩) ∧
       (respawnFoods env st.rngK CONFIG.respawnAmount).length = CONFIG.respawnAmount ∧
       (∀ nf ∈ respawnFoods env st.rngK CONFIG.respawnAmount,
          -CONFIG.mapWidth ≤ nf.x ∧ nf.x ≤ CONFIG.mapWidth ∧
          -CONFIG.mapHeight ≤ nf.y ∧ nf.y ≤ CONFIG.mapHeight)
     else
       (foodStep env recips p st i).2.foods = st.foods.eraseIdx i ∧
       (foodStep env recips p st i).2.events
           = st.events ++ [⟨recips, Msg.foodEaten f.x f.y p.id none⟩]) := by
  unfold foodStep
  rw [hf]
  dsimp only
  rw [if_pos hdist]
  by_cases hthr : ((st.foods.eraseIdx i).length : ℚ)
      < (CONFIG.foodCount : ℚ) * CONFIG.respawnThreshold
  · simp only [if_pos hthr]
    exact ⟨True.intro, True.intro, True.intro, True.intro,
      respawnFoods_length env st.rngK CONFIG.respawnAmount,
      respawnFoods_extents env hrng st.rngK CONFIG.respawnAmount⟩
  · simp only [if_neg hthr]
    exact ⟨True.intro, True.intro, True.intro, True.intro⟩

/- A concrete pickup: one food item at the position of player 80, so the
   respawn branch fires. -/
def pfood : Player := ⟨80, 1, "f", 0x44aa88, true, 0, 0, 1, ⟨0, 0⟩, none⟩

def st8 : FoodSt := ⟨[⟨0, 0⟩], 0, []⟩

/-- Witness for C8 at a concrete input: player 80 eats the only food item,
its size moves from 1 to 1 plus the growth increment and its id is kept. -/
theorem food_pickup_and_respawn_witness :
    (foodStep exactEnv [1] pfood st8 0).1.size = pfood.size + CONFIG.growthRate ∧
    (foodStep exactEnv [1] pfood st8 0).1.id = pfood.id :=
  ⟨(food_pickup_and_respawn exactEnv [1] pfood st8 0 ⟨0, 0⟩ rfl
      (by with_unfolding_all decide)
      (fun k => ⟨by norm_num [exactEnv], by norm_num [exactEnv]⟩)).1,
   (food_pickup_and_respawn exactEnv [1] pfood st8 0 ⟨0, 0⟩ rfl
      (by with_unfolding_all decide)
      (fun k => ⟨by norm_num [exactEnv], by norm_num [exactEnv]⟩)).2.1⟩

/-- Claim C4. Sizes stay at or above playerStartSize across every server
operation (the Action type covers each mutating handler and timer body),
and across a simulation tick every surviving player maps to an ancestor
of the same id whose size was no larger. -/
theorem size_invariants_hold (env : JsEnv) (a : Action) (w : World) (lid : Nat)
    (dt n1 n2 : ℚ) (h : SizeInv w) :
    SizeInv (applyAction env a w) ∧
    SizeOK (rosterOf w lid) (rosterOf (updateGameState env w lid dt n1 n2).1 lid) :=
  ⟨applyAction_sizeInv env a w h, (updateGameState_sizeOK env w lid dt n1 n2 (h lid)).1⟩

theorem sizeInv_w0 : SizeInv w0 := by
  intro lid p hp
  by_cases h7 : lid = 7
  · subst h7
    have h2 : rosterOf w0 7 = [playerA, playerB] := by with_unfolding_all rfl
    rw [h2] at hp
    rcases List.mem_cons.mp hp with h | h
    · rw [h]
      with_unfolding_all decide
    · rcases List.mem_cons.mp h with h | h
      · rw [h]
        with_unfolding_all decide
      · cases h
  · have h2 : findLobby w0 lid = none := by
      unfold findLobby w0
      dsimp only
      rw [List.find?_cons_of_neg _ (by simpa using Ne.symm h7)]
      rfl
    unfold rosterOf at hp
    rw [h2] at hp
    cases hp

/-- Witness for C4 at a concrete input: the absorption tick of w0 keeps
every size at or above the starting size, and every survivor of the tick
has a no-larger ancestor. -/
theorem size_invariants_hold_witness :
    SizeInv (applyAction exactEnv (Action.gameTick 7 (1/60) 0 0) w0) ∧
    SizeOK (rosterOf w0 7) (rosterOf (updateGameState exactEnv w0 7 (1/60) 0 0).1 7) :=
  size_invariants_hold exactEnv (Action.gameTick 7 (1/60) 0 0) w0 7 (1/60) 0 0 sizeInv_w0

/-- Claim C10. The connection owning an absorbed player is detached before
the player_eaten broadcast, and the lobby multicast only addresses open
connections owning a roster player, so when no surviving player is owned
by that connection the only delivery it receives out of absorbPlayer is
the direct you_were_eliminated message; in particular the player_eaten
broadcast for its own elimination never reaches it. -/
theorem eliminated_connection_excluded (w : World) (lid a b : Nat) (L : Lobby) (c : Client)
    (hL : findLobby w lid = some L)
    (hc : w.clients.find? (fun cl => cl.playerId == some b) = some c)
    (hcid : findClient w c.id = some c)
    (hopen : c.wsOpen = true)
    (hothers : ∀ p ∈ L.players, p.id ≠ b → p.clientId ≠ c.id) :
    (absorbPlayer w lid a b).2.1.filter (fun e => decide (c.id ∈ e.recipients))
      = [⟨[c.id], Msg.youWereEliminated⟩] := by
  have hfilterP : ∀ p ∈ L.players.filter (fun q => q.id != b), p.clientId ≠ c.id := by
    intro p hp
    obtain ⟨hpL, hpb⟩ := List.mem_filter.mp hp
    exact hothers p hpL (by simpa using hpb)
  have hbfilter : ∀ (w3 : World) (L3 : Lobby) (m : Msg),
      findLobby w3 lid = some L3 →
      (∀ p ∈ L3.players, p.clientId ≠ c.id) →
      (broadcastToLobby w3 lid m).filter (fun e => decide (c.id ∈ e.recipients)) = [] := by
    intro w3 L3 m h3 hp3
    unfold broadcastToLobby
    rw [h3]
    have hd : (decide (c.id ∈ lobbyRecipients w3 L3)) = false :=
      decide_eq_false (not_mem_lobbyRecipients hp3)
    simp [List.filter, hd]
  have hL1 : findLobby (modifyRoster w lid (fun ps => ps.filter (fun q => q.id != b))) lid
      = some { L with players := L.players.filter (fun q => q.id != b) } :=
    findLobby_modifyRoster_self _ hL
  have hL2 : findLobby (updateClient
        (modifyRoster w lid (fun ps => ps.filter (fun q => q.id != b)))
        c.id (fun cl => { cl with playerId := none })) lid
      = some { L with players := L.players.filter (fun q => q.id != b) } := by
    rw [findLobby_updateClient]
    exact hL1
  have hfc2 : findClient (updateClient
        (modifyRoster w lid (fun ps => ps.filter (fun q => q.id != b)))
        c.id (fun cl => { cl with playerId := none })) c.id
      = some { c with playerId := none } := by
    have hmr : findClient (modifyRoster w lid (fun ps => ps.filter (fun q => q.id != b))) c.id
        = findClient w c.id := by
      unfold findClient
      rw [clients_modifyRoster]
    rw [findClient_updateClient c.id (fun cl => { cl with playerId := none })
          (fun cl => rfl), hmr, hcid]
    rfl
  have hone : ∀ (m : Msg), (sendToClient (updateClient
        (modifyRoster w lid (fun ps => ps.filter (fun q => q.id != b)))
        c.id (fun cl => { cl with playerId := none })) c.id m).filter
          (fun e => decide (c.id ∈ e.recipients)) = [⟨[c.id], m⟩] := by
    intro m
    unfold sendToClient
    rw [hfc2]
    dsimp only
    rw [if_pos (show c.wsOpen = true from hopen)]
    simp [List.filter]
  unfold absorbPlayer
  rw [hL]
  dsimp only
  unfold absorbStep1
  rw [hc]
  dsimp only
  rw [hL2]
  dsimp only
  split
  · rename_i hcond
    unfold endGame
    rw [hL2]
    dsimp only
    rw [if_neg (by simp [hcond.2])]
    dsimp only
    rw [List.filter_append, List.filter_append]
    rw [hbfilter _ _ _ hL2 hfilterP, hone]
    rw [hbfilter _ _ _ (findLobby_setLobby_self _ (by rw [hL2]; rfl)) hfilterP]
    rfl
  · rw [List.filter_append]
    rw [hbfilter _ _ _ hL2 hfilterP, hone]
    rfl

/-- Witness for C10 at a concrete input: when player 10 absorbs player 11
in w0, connection 2 (owner of the absorbed player 11) receives exactly the
direct you_were_eliminated message and none of the broadcasts. -/
theorem eliminated_connection_excluded_witness :
    (absorbPlayer w0 7 10 11).2.1.filter (fun e => decide (clientC2.id ∈ e.recipients))
      = [⟨[clientC2.id], Msg.youWereEliminated⟩] :=
  eliminated_connection_excluded w0 7 10 11 lobby7 clientC2
    (by with_unfolding_all rfl) (by with_unfolding_all rfl)
    (by with_unfolding_all rfl) rfl (by with_unfolding_all decide)

/- Exact description of the elimination step when the absorbed player has
   an owning client that is found again by id and is open. -/
theorem absorbStep1_exact {w : World} {lid : Nat} (a b : Nat) {c : Client}
    (hc : w.clients.find? (fun cl => cl.playerId == some b) = some c)
    (hcid : findClient w c.id = some c)
    (hopen : c.wsOpen = true) :
    (absorbStep1 w lid a b).1
        = updateClient (modifyRoster w lid (fun ps => ps.filter (fun q => q.id != b)))
            c.id (fun cl => { cl with playerId := none }) ∧
    (absorbStep1 w lid a b).2
        = broadcastToLobby
            (updateClient (modifyRoster w lid (fun ps => ps.filter (fun q => q.id != b)))
              c.id (fun cl => { cl with playerId := none }))
            lid (Msg.playerEaten b (some a))
          ++ [⟨[c.id], Msg.youWereEliminated⟩] := by
  have hfc2 : findClient (updateClient
        (modifyRoster w lid (fun ps => ps.filter (fun q => q.id != b)))
        c.id (fun cl => { cl with playerId := none })) c.id
      = some { c with playerId := none } := by
    have hmr : findClient (modifyRoster w lid (fun ps => ps.filter (fun q => q.id != b))) c.id
        = findClient w c.id := by
      unfold findClient
      rw [clients_modifyRoster]
    rw [findClient_updateClient c.id (fun cl => { cl with playerId := none })
          (fun cl => rfl), hmr, hcid]
    rfl
  unfold absorbStep1
  rw [hc]
  dsimp only
  refine ⟨rfl, ?_⟩
  congr 1
  unfold sendToClient
  rw [hfc2]
  dsimp only
  rw [if_pos (show c.wsOpen = true from hopen)]

/- Exact description of absorbPlayer when two players survive, so that the
   end of game check does not fire. -/
theorem absorbPlayer_exact_two {w : World} {lid : Nat} (a b : Nat) {L : Lobby} {c : Client}
    (hL : findLobby w lid = some L)
    (hc : w.clients.find? (fun cl => cl.playerId == some b) = some c)
    (hcid : findClient w c.id = some c)
    (hopen : c.wsOpen = true)
    (hlen : (L.players.filter (fun q => q.id != b)).length = 2) :
    (absorbPlayer w lid a b).1
        = updateClient (modifyRoster w lid (fun ps => ps.filter (fun q => q.id != b)))
            c.id (fun cl => { cl with playerId := none }) ∧
    (absorbPlayer w lid a b).2.1
        = broadcastToLobby
            (updateClient (modifyRoster w lid (fun ps => ps.filter (fun q => q.id != b)))
              c.id (fun cl => { cl with playerId := none }))
            lid (Msg.playerEaten b (some a))
          ++ [⟨[c.id], Msg.youWereEliminated⟩] ∧
    (absorbPlayer w lid a b).2.2 = [] := by
  obtain ⟨h1, h2⟩ := @absorbStep1_exact w lid a b c hc hcid hopen
  have hL2 : findLobby (absorbStep1 w lid a b).1 lid
      = some { L with players := L.players.filter (fun q => q.id != b) } := by
    rw [h1, findLobby_updateClient]
    exact findLobby_modifyRoster_self _ hL
  unfold absorbPlayer
  rw [hL]
  dsimp only
  rw [hL2]
  dsimp only
  rw [if_neg (by
    rw [hlen]
    rintro ⟨h21, _⟩
    omega)]
  exact ⟨h1, h2, rfl⟩

/-- Claim C3. Deterministic absorption: in a playing lobby whose roster is
A, B and a bystander, with A of size 2 touching B of size 1 (so the
threshold test 2 over 1 times 6/5 passes), resolving the pair (0, 1) of
the collision scan leaves A with size 5/2, removes B from the roster,
detaches the connection owning B from any player, broadcasts exactly one
player_eaten naming B eaten by A, and sends exactly one you_were_eliminated,
addressed to the owning connection of B alone. -/
theorem absorption_deterministic (env : JsEnv) (lid : Nat) (w : World) (L : Lobby)
    (A B P3 : Player) (c : Client) (st : CollSt)
    (hw : st.world = w)
    (hsnap : st.snap = [A, B, P3])
    (hev : st.events = [])
    (hL : findLobby w lid = some L)
    (hplayers : L.players = [A, B, P3])
    (hA : A.size = 2) (hB : B.size = 1)
    (hAB : A.id ≠ B.id) (hP3B : P3.id ≠ B.id) (hP3A : P3.id ≠ A.id)
    (htouch : env.sqrt ((A.x - B.x) * (A.x - B.x) + (A.y - B.y) * (A.y - B.y)) < 3)
    (hc : w.clients.find? (fun cl => cl.playerId == some B.id) = some c)
    (hcid : findClient w c.id = some c)
    (hopen : c.wsOpen = true) :
    ((rosterOf (stepPair env lid st 0 1).world lid).map (fun p => (p.id, p.size))
        = [(A.id, 5/2), (P3.id, P3.size)]) ∧
    (findClient (stepPair env lid st 0 1).world c.id = some { c with playerId := none }) ∧
    ((stepPair env lid st 0 1).events.map Event.payload
        = [Msg.playerEaten B.id (some A.id), Msg.youWereEliminated]) ∧
    ((stepPair env lid st 0 1).events[1]? = some ⟨[c.id], Msg.youWereEliminated⟩) := by
  obtain ⟨wst, snap, evs, touts⟩ := st
  dsimp only at hw hsnap hev
  subst hw hsnap hev
  unfold stepPair
  simp only [List.getElem?_cons_zero, List.getElem?_cons_succ]
  rw [if_pos (show env.sqrt ((A.x - B.x) * (A.x - B.x) + (A.y - B.y) * (A.y - B.y))
        < A.size + B.size by rw [hA, hB]; linarith [htouch])]
  rw [if_pos (show A.size > B.size * CONFIG.absorptionThreshold by
        rw [hA, hB]; unfold CONFIG.absorptionThreshold; norm_num)]
  unfold writeSnapPlayer
  dsimp only
  generalize hA1 : ({ A with size := A.size + B.size * (1/2), input := ⟨A.input.x + B.input.x * (B.size / A.size) * (1/2), A.input.y + B.input.y * (B.size / A.size) * (1/2)⟩ } : Player) = A1
  have hA1id : A1.id = A.id := by rw [← hA1]
  have hA1size : A1.size = A.size + B.size * (1/2) := by rw [← hA1]
  have hgmap : [A, B, P3].map (fun q => if q.id == A.id then A1 else q) = [A1, B, P3] := by
    simp only [List.map]
    rw [if_pos (by simp), if_neg (by simpa using Ne.symm hAB),
        if_neg (by simpa using hP3A)]
  have hLmid : findLobby (modifyRoster wst lid
        (fun ps => ps.map (fun q => if q.id == A.id then A1 else q))) lid
      = some { L with players := [A1, B, P3] } := by
    have h0 := findLobby_modifyRoster_self
      (fun ps => ps.map (fun q => if q.id == A.id then A1 else q)) hL
    rw [hplayers] at h0
    dsimp only at h0
    rw [hgmap] at h0
    exact h0
  have hc2 : (modifyRoster wst lid
        (fun ps => ps.map (fun q => if q.id == A.id then A1 else q))).clients.find?
          (fun cl => cl.playerId == some B.id) = some c := by
    rw [clients_modifyRoster]
    exact hc
  have hcid2 : findClient (modifyRoster wst lid
        (fun ps => ps.map (fun q => if q.id == A.id then A1 else q))) c.id = some c := by
    unfold findClient
    rw [clients_modifyRoster]
    exact hcid
  have hbne1 : (A.id != B.id) = true := by simpa using hAB
  have hbne2 : (P3.id != B.id) = true := by simpa using hP3B
  have hfilt : [A1, B, P3].filter (fun q => q.id != B.id) = [A1, P3] := by
    simp [List.filter_cons, hA1id, hbne1, hbne2]
  have hlen2 : (({ L with players := [A1, B, P3] } : Lobby).players.filter
        (fun q => q.id != B.id)).length = 2 := by
    dsimp only
    rw [hfilt]
    rfl
  obtain ⟨habs1, habs2, habs3⟩ :=
    absorbPlayer_exact_two A.id B.id hLmid hc2 hcid2 hopen hlen2
  rw [habs1, habs2]
  have hfl3 : findLobby (updateClient (modifyRoster (modifyRoster wst lid
        (fun ps => ps.map (fun q => if q.id == A.id then A1 else q))) lid
          (fun ps => ps.filter (fun q => q.id != B.id))) c.id
          (fun cl => { cl with playerId := none })) lid
      = some { L with players := [A1, B, P3].filter (fun q => q.id != B.id) } := by
    rw [findLobby_updateClient]
    exact findLobby_modifyRoster_self _ hLmid
  refine ⟨?_, ?_, ?_, ?_⟩
  · rw [rosterOf_updateClient,
        rosterOf_eq_of_findLobby (findLobby_modifyRoster_self _ hLmid)]
    dsimp only
    rw [hfilt]
    simp only [List.map]
    rw [hA1size, hA, hB, hA1id]
    norm_num
  · have hmr2 : findClient (modifyRoster (modifyRoster wst lid
          (fun ps => ps.map (fun q => if q.id == A.id then A1 else q))) lid
            (fun ps => ps.filter (fun q => q.id != B.id))) c.id
        = findClient wst c.id := by
      unfold findClient
      rw [clients_modifyRoster, clients_modifyRoster]
    rw [findClient_updateClient c.id (fun cl => { cl with playerId := none })
          (fun cl => rfl), hmr2, hcid]
    rfl
  · unfold broadcastToLobby
    rw [hfl3]
    rfl
  · unfold broadcastToLobby
    rw [hfl3]
    rfl

/- The absorption scenario with a bystander, so the game does not end. -/
def playerE : Player := ⟨12, 3, "E", 0x4444aa, true, 10, 5, 1, ⟨0, 0⟩, none⟩

def lobby9 : Lobby :=
  { players := [playerA, playerB, playerE], gameState := GameState.playing,
    foodItems := [], countdown := 0, countdownInterval := false,
    gameTickInterval := true }

def w9 : World :=
  ⟨[clientC1, clientC2, ⟨3, some 12, some 9, true⟩], [(9, lobby9)], 100, 0⟩

def st9 : CollSt := ⟨w9, [playerA, playerB, playerE], [], []⟩

/-- Witness for C3 at a concrete input: resolving the touching pair of w9
gives player 10 size 5/2, drops player 11, detaches connection 2 and emits
exactly the two expected messages, the second to connection 2 alone. -/
theorem absorption_deterministic_witness :
    ((rosterOf (stepPair exactEnv 9 st9 0 1).world 9).map (fun p => (p.id, p.size))
        = [(playerA.id, 5/2), (playerE.id, playerE.size)]) ∧
    (findClient (stepPair exactEnv 9 st9 0 1).world clientC2.id
        = some { clientC2 with playerId := none }) ∧
    ((stepPair exactEnv 9 st9 0 1).events.map Event.payload
        = [Msg.playerEaten playerB.id (some playerA.id), Msg.youWereEliminated]) ∧
    ((stepPair exactEnv 9 st9 0 1).events[1]?
        = some ⟨[clientC2.id], Msg.youWereEliminated⟩) :=
  absorption_deterministic exactEnv 9 w9 lobby9 playerA playerB playerE clientC2 st9
    rfl rfl rfl (by with_unfolding_all rfl) rfl rfl rfl
    (by decide) (by decide) (by decide)
    (by with_unfolding_all decide) (by with_unfolding_all rfl)
    (by with_unfolding_all rfl) rfl

/- Field bookkeeping of the game start pipeline, for the countdown claim. -/

theorem initializeGamePositions_found (env : JsEnv) {w : World} {lid : Nat} {L : Lobby}
    (h : findLobby w lid = some L) :
    ∃ ps, findLobby (initializeGamePositions env w lid) lid
        = some { L with players := ps } := by
  unfold initializeGamePositions
  rw [h]
  dsimp only
  exact ⟨_, findLobby_setLobby_self _ (by rw [h]; rfl)⟩

theorem generateFood_found (env : JsEnv) {w : World} {lid : Nat} {L : Lobby}
    (h : findLobby w lid = some L) :
    ∃ fs, findLobby (generateFood env w lid) lid = some { L with foodItems := fs } := by
  unfold generateFood
  rw [h]
  dsimp only
  refine ⟨(List.range CONFIG.foodCount).map (fun i =>
    (⟨(env.rng (w.rngK + 2 * i) * 2 - 1) * CONFIG.mapWidth,
      (env.rng (w.rngK + 2 * i + 1) * 2 - 1) * CONFIG.mapHeight⟩ : Vec2)), ?_⟩
  rw [findLobby_rngK]
  exact findLobby_setLobby_self _ (by rw [h]; rfl)

theorem startGameTick_found {w : World} {lid : Nat} {L : Lobby}
    (h : findLobby w lid = some L) :
    findLobby (startGameTick w lid) lid = some { L with gameTickInterval := true } := by
  unfold startGameTick modifyLobbyIf
  rw [h]
  exact findLobby_setLobby_self _ (by rw [h]; rfl)

theorem startGame_found (env : JsEnv) {w : World} {lid : Nat} {L : Lobby}
    (h : findLobby w lid = some L) :
    (∃ L2, findLobby (startGame env w lid).1 lid = some L2 ∧
       L2.gameState = GameState.playing ∧
       L2.countdownInterval = L.countdownInterval ∧
       L2.gameTickInterval = true) ∧
    (∀ ev ∈ (startGame env w lid).2, ∃ ps fs, ev.payload = Msg.gameStart ps fs) := by
  unfold startGame
  rw [h]
  dsimp only
  have h1 : findLobby (setLobby w lid { L with gameState := GameState.playing }) lid
      = some { L with gameState := GameState.playing } :=
    findLobby_setLobby_self _ (by rw [h]; rfl)
  obtain ⟨ps, h2⟩ := initializeGamePositions_found env h1
  obtain ⟨fs, h3⟩ := generateFood_found env h2
  constructor
  · exact ⟨_, startGameTick_found h3, rfl, rfl, rfl⟩
  · intro ev hev
    rw [h3] at hev
    dsimp only at hev
    exact ⟨_, _, broadcastToLobby_payload hev⟩

/- One countdown interval firing, in the positive and in the final case. -/
theorem countdownTick_step (env : JsEnv) (w2 : World) (lid : Nat) (L2 : Lobby)
    (hF : findLobby w2 lid = some L2) (hpos : L2.countdown - 1 > 0) :
    countdownTick env w2 lid
      = (setLobby w2 lid { L2 with countdown := L2.countdown - 1 },
         broadcastToLobby (setLobby w2 lid { L2 with countdown := L2.countdown - 1 }) lid (Msg.countdownMsg (L2.countdown - 1))) := by
  unfold countdownTick
  rw [hF]
  dsimp only
  rw [if_pos hpos]

theorem countdownTick_zero (env : JsEnv) (w2 : World) (lid : Nat) (L2 : Lobby)
    (hF : findLobby w2 lid = some L2) (hneg : ¬ (L2.countdown - 1 > 0)) :
    countdownTick env w2 lid
      = startGame env (setLobby (setLobby w2 lid { L2 with countdown := L2.countdown - 1 }) lid { L2 with countdown := L2.countdown - 1, countdownInterval := false }) lid := by
  unfold countdownTick
  rw [hF]
  dsimp only
  rw [if_neg hneg]

/-- Claim C5. A countdown started on a found lobby holds the configured
value 3; each of the three one second ticks decrements and broadcasts the
remaining count while the state stays countdown, and the third tick clears
the countdown interval flag, moves the lobby to playing exactly once (the
two earlier ticks leave it in countdown) and installs the game tick
interval; the third tick broadcasts no countdown value. -/
theorem countdown_three_ticks_to_playing (env : JsEnv) (w : World) (lid : Nat) (L : Lobby)
    (hL : findLobby w lid = some L) :
    CONFIG.countdownTime = 3 ∧
    findLobby (startCountdown w lid).1 lid
        = some { L with gameState := GameState.countdown, countdown := 3, countdownInterval := true } ∧
    (∀ ev ∈ (startCountdown w lid).2, ev.payload = Msg.countdownMsg 3) ∧
    findLobby (countdownTick env (startCountdown w lid).1 lid).1 lid
        = some { L with gameState := GameState.countdown, countdown := 2, countdownInterval := true } ∧
    (∀ ev ∈ (countdownTick env (startCountdown w lid).1 lid).2,
        ev.payload = Msg.countdownMsg 2) ∧
    findLobby (countdownTick env (countdownTick env (startCountdown w lid).1 lid).1 lid).1 lid
        = some { L with gameState := GameState.countdown, countdown := 1, countdownInterval := true } ∧
    (∀ ev ∈ (countdownTick env (countdownTick env (startCountdown w lid).1 lid).1 lid).2,
        ev.payload = Msg.countdownMsg 1) ∧
    (∃ L4, findLobby (countdownTick env (countdownTick env (countdownTick env
            (startCountdown w lid).1 lid).1 lid).1 lid).1 lid = some L4 ∧
        L4.gameState = GameState.playing ∧ L4.countdownInterval = false ∧
        L4.gameTickInterval = true) ∧
    (∀ ev ∈ (countdownTick env (countdownTick env (countdownTick env
            (startCountdown w lid).1 lid).1 lid).1 lid).2,
        ∀ k, ev.payload ≠ Msg.countdownMsg k) := by
  have hS : startCountdown w lid
      = (setLobby (setLobby w lid { L with gameState := GameState.countdown, countdown := 3 }) lid { L with gameState := GameState.countdown, countdown := 3, countdownInterval := true },
         broadcastToLobby (setLobby w lid { L with gameState := GameState.countdown, countdown := 3 }) lid (Msg.countdownMsg 3)) := by
    unfold startCountdown
    rw [hL]
    rfl
  have hF1 : findLobby (startCountdown w lid).1 lid
      = some { L with gameState := GameState.countdown, countdown := 3, countdownInterval := true } := by
    rw [hS]
    exact findLobby_setLobby_self _ (isSome_findLobby_setLobby _ (by rw [hL]; rfl))
  have hE1 : ∀ ev ∈ (startCountdown w lid).2, ev.payload = Msg.countdownMsg 3 := by
    intro ev hev
    rw [hS] at hev
    exact broadcastToLobby_payload hev
  have hT1 := countdownTick_step env (startCountdown w lid).1 lid
    { L with gameState := GameState.countdown, countdown := 3, countdownInterval := true }
    hF1 (by dsimp only; decide)
  have hF2 : findLobby (countdownTick env (startCountdown w lid).1 lid).1 lid
      = some { L with gameState := GameState.countdown, countdown := 2, countdownInterval := true } := by
    rw [hT1]
    exact findLobby_setLobby_self _ (by rw [hF1]; rfl)
  have hE2 : ∀ ev ∈ (countdownTick env (startCountdown w lid).1 lid).2,
      ev.payload = Msg.countdownMsg 2 := by
    intro ev hev
    rw [hT1] at hev
    exact broadcastToLobby_payload hev
  have hT2 := countdownTick_step env (countdownTick env (startCountdown w lid).1 lid).1 lid
    { L with gameState := GameState.countdown, countdown := 2, countdownInterval := true }
    hF2 (by dsimp only; decide)
  have hF3 : findLobby (countdownTick env (countdownTick env (startCountdown w lid).1 lid).1 lid).1 lid
      = some { L with gameState := GameState.countdown, countdown := 1, countdownInterval := true } := by
    rw [hT2]
    exact findLobby_setLobby_self _ (by rw [hF2]; rfl)
  have hE3 : ∀ ev ∈ (countdownTick env (countdownTick env (startCountdown w lid).1 lid).1 lid).2,
      ev.payload = Msg.countdownMsg 1 := by
    intro ev hev
    rw [hT2] at hev
    exact broadcastToLobby_payload hev
  have hT3 := countdownTick_zero env
    (countdownTick env (countdownTick env (startCountdown w lid).1 lid).1 lid).1 lid
    { L with gameState := GameState.countdown, countdown := 1, countdownInterval := true }
    hF3 (by dsimp only; decide)
  have hFb : findLobby (setLobby (setLobby (countdownTick env (countdownTick env (startCountdown w lid).1 lid).1 lid).1 lid { L with gameState := GameState.countdown, countdown := 0, countdownInterval := true }) lid { L with gameState := GameState.countdown, countdown := 0, countdownInterval := false }) lid
      = some { L with gameState := GameState.countdown, countdown := 0, countdownInterval := false } :=
    findLobby_setLobby_self _ (isSome_findLobby_setLobby _ (by rw [hF3]; rfl))
  refine ⟨rfl, hF1, hE1, hF2, hE2, hF3, hE3, ?_, ?_⟩
  · rw [hT3]
    obtain ⟨⟨L2, hfl, hgs, hci, hgt⟩, _⟩ := startGame_found env hFb
    exact ⟨L2, hfl, hgs, by rw [hci], hgt⟩
  · intro ev hev k
    rw [hT3] at hev
    obtain ⟨ps, fs, hp⟩ := (startGame_found env hFb).2 ev hev
    rw [hp]
    simp

/-- Witness for C5 at a concrete input: the fresh lobby 100 of wa walks
through countdown values 3, 2, 1 with the countdown state, reaching the
playing state with the game tick installed after the third tick. -/
theorem countdown_three_ticks_to_playing_witness :
    CONFIG.countdownTime = 3 ∧
    findLobby (startCountdown wa 100).1 100
        = some { defaultLobby with gameState := GameState.countdown, countdown := 3, countdownInterval := true } ∧
    findLobby (countdownTick exactEnv (startCountdown wa 100).1 100).1 100
        = some { defaultLobby with gameState := GameState.countdown, countdown := 2, countdownInterval := true } ∧
    findLobby (countdownTick exactEnv (countdownTick exactEnv (startCountdown wa 100).1 100).1 100).1 100
        = some { defaultLobby with gameState := GameState.countdown, countdown := 1, countdownInterval := true } :=
  ⟨(countdown_three_ticks_to_playing exactEnv wa 100 defaultLobby rfl).1,
   (countdown_three_ticks_to_playing exactEnv wa 100 defaultLobby rfl).2.1,
   (countdown_three_ticks_to_playing exactEnv wa 100 defaultLobby rfl).2.2.2.1,
   (countdown_three_ticks_to_playing exactEnv wa 100 defaultLobby rfl).2.2.2.2.2.1⟩

end IoGame
